import Mathlib

/-!
Verification of the crucible protocol repository (Go) against its
natural-language specification.

This file shallowly embeds the parts of the source the claims touch:

* the SHA-256 digest pipeline of the blob store (`pkg/registry/storage.go`),
* the SQL-backed registry facade and its raw database layer
  (`pkg/registry/sqlregistry.go`, the db helpers, and the SQL statements),
* the name and version validators (`pkg/registry/validators`),
* the tar+zstd archive codec's path validation and cleanup logic
  (`pkg/archive`),
* the reference identifier parser (`pkg/reference`).

Go strings are modelled at rune level (`List Char` for the algorithms,
`String` for record fields); machine integers as `Nat`/`Int` with explicit
`% 2 ^ 32` where the code relies on 32-bit wrap-around (the SHA-256
compression function); fallible code returns `Except`/`Option`.  Filesystem
state is a list of existing paths; the database is a record of row lists and
each SQL statement is a pure function on it.
-/

set_option maxRecDepth 4000

/-! ## Go error chains

The source wraps sentinel errors with `helpers.Wrap(sentinel, err)`, producing
a chain that `errors.Is` walks.  A chain is modelled as the list of sentinels
from the outside in; `errors.Is(err, s)` is list membership. -/

/-- Error sentinels of the repository that the claims mention. -/
inductive ErrTag
  | createFailed
  | extractFailed
  | invalidPath
  | unsupportedFileType
  | fileExists
  | invalidIdentifier
  | invalidReference
  | invalidContextType
  | emptyIdentifier
  | typeMismatch
  | missingRegistry
  | missingPath
  | emptyPath
  | otherMsg (msg : String)
deriving DecidableEq, Repr

/-- An error value as a chain of wrapped sentinels, outermost first. -/
abbrev GoErr := List ErrTag

/-- Models helpers.Wrap: the sentinel is stacked onto the underlying error. -/
def goWrap (sentinel : ErrTag) (e : GoErr) : GoErr := sentinel :: e

/-- Models errors.Is over the chain. -/
def goErrIs (e : GoErr) (t : ErrTag) : Prop := t ∈ e

instance (e : GoErr) (t : ErrTag) : Decidable (goErrIs e t) := by
  unfold goErrIs; infer_instance

/-! ## Character classes and list-level string utilities

The algorithms of the source run on Go strings; they are modelled on
`List Char` (rune sequences).  Literals enter through `String.data`. -/

/-- Whether a character is an ASCII lowercase letter. -/
def isLowerAlpha (c : Char) : Bool := 97 ≤ c.toNat && c.toNat ≤ 122

/-- Whether a character is an ASCII digit. -/
def isDigitGo (c : Char) : Bool := 48 ≤ c.toNat && c.toNat ≤ 57

/-- Whether a character is an ASCII lowercase letter or digit. -/
def isLowerAlphaNum (c : Char) : Bool := isLowerAlpha c || isDigitGo c

/-- Whether a character is an ASCII letter or digit (any case). -/
def isAlphaNumGo (c : Char) : Bool :=
  isLowerAlphaNum c || (65 ≤ c.toNat && c.toNat ≤ 90)

/-- Models strings.Split with a one-character separator (Go semantics:
splitting the empty string yields one empty field). -/
def splitOnChar (sep : Char) : List Char → List (List Char)
  | [] => [[]]
  | c :: rest =>
    let r := splitOnChar sep rest
    if c = sep then [] :: r
    else
      match r with
      | h :: t => (c :: h) :: t
      | [] => [[c]]

/-- Whether the first list is a leading segment of the second. -/
def leadsList : List Char → List Char → Bool
  | [], _ => true
  | _ :: _, [] => false
  | a :: as, b :: bs => a = b && leadsList as bs

/-- Models strings.Cut for a non-empty separator: the text before and after
the first occurrence, or none when the separator does not occur. -/
def cutList (sep : List Char) : List Char → Option (List Char × List Char)
  | [] => none
  | c :: rest =>
    if leadsList sep (c :: rest) then some ([], (c :: rest).drop sep.length)
    else
      match cutList sep rest with
      | some (pre, post) => some (c :: pre, post)
      | none => none

/-- Whether a character is ASCII whitespace (the cases unicode.IsSpace hits
for the inputs of this repository). -/
def isSpaceGo (c : Char) : Bool :=
  c = ' ' || c = '\t' || c = '\n' || c = '\x0b' || c = '\x0c' || c = '\r'

/-- Accumulator pass of `fieldsGo`. -/
def fieldsGoAux : List Char → List Char → List (List Char)
  | [], acc => if acc = [] then [] else [acc.reverse]
  | c :: rest, acc =>
    if isSpaceGo c then
      if acc = [] then fieldsGoAux rest []
      else acc.reverse :: fieldsGoAux rest []
    else fieldsGoAux rest (c :: acc)

/-- Models strings.Fields: maximal runs of non-whitespace characters. -/
def fieldsGo (s : List Char) : List (List Char) := fieldsGoAux s []

/-- Models strings.Contains for a single character. -/
def containsChar (s : List Char) (c : Char) : Bool := s.contains c

/-! ## SHA-256

The blob store hashes the uploaded stream with crypto/sha256.  The function
is implemented here over byte lists; 32-bit words are `Nat` reduced
`% 2 ^ 32` exactly where the algorithm wraps. -/

/-- The 32-bit modulus. -/
def m32 : Nat := 4294967296

/-- Right rotation of a 32-bit word. -/
def rotr (n x : Nat) : Nat := (x >>> n) + (x % (2 ^ n)) * (2 ^ (32 - n))

/-- Message-schedule sigma-0. -/
def smallSigma0 (x : Nat) : Nat := (rotr 7 x) ^^^ (rotr 18 x) ^^^ (x >>> 3)

/-- Message-schedule sigma-1. -/
def smallSigma1 (x : Nat) : Nat := (rotr 17 x) ^^^ (rotr 19 x) ^^^ (x >>> 10)

/-- Compression Sigma-0. -/
def bigSigma0 (x : Nat) : Nat := (rotr 2 x) ^^^ (rotr 13 x) ^^^ (rotr 22 x)

/-- Compression Sigma-1. -/
def bigSigma1 (x : Nat) : Nat := (rotr 6 x) ^^^ (rotr 11 x) ^^^ (rotr 25 x)

/-- Choice function. -/
def chFn (x y z : Nat) : Nat := (x &&& y) ^^^ ((x ^^^ 4294967295) &&& z)

/-- Majority function. -/
def majFn (x y z : Nat) : Nat := (x &&& y) ^^^ (x &&& z) ^^^ (y &&& z)

/-- The SHA-256 round constants, as decimal machine words. -/
def sha256K : List Nat :=
  [1116352408, 1899447441, 3049323471, 3921009573,
   961987163, 1508970993, 2453635748, 2870763221,
   3624381080, 310598401, 607225278, 1426881987,
   1925078388, 2162078206, 2614888103, 3248222580,
   3835390401, 4022224774, 264347078, 604807628,
   770255983, 1249150122, 1555081692, 1996064986,
   2554220882, 2821834349, 2952996808, 3210313671,
   3336571891, 3584528711, 113926993, 338241895,
   666307205, 773529912, 1294757372, 1396182291,
   1695183700, 1986661051, 2177026350, 2456956037,
   2730485921, 2820302411, 3259730800, 3345764771,
   3516065817, 3600352804, 4094571909, 275423344,
   430227734, 506948616, 659060556, 883997877,
   958139571, 1322822218, 1537002063, 1747873779,
   1955562222, 2024104815, 2227730452, 2361852424,
   2428436474, 2756734187, 3204031479, 3329325298]

/-- The SHA-256 initial hash values, as decimal machine words. -/
def sha256H0 : List Nat :=
  [1779033703, 3144134277, 1013904242, 2773480762,
   1359893119, 2600822924, 528734635, 1541459225]

/-- Big-endian 8-byte encoding of a length. -/
def beBytes8 (n : Nat) : List Nat :=
  [(n >>> 56) % 256, (n >>> 48) % 256, (n >>> 40) % 256, (n >>> 32) % 256,
   (n >>> 24) % 256, (n >>> 16) % 256, (n >>> 8) % 256, n % 256]

/-- SHA-256 padding: 0x80, zeros to 56 mod 64, then the bit length. -/
def padMessage (msg : List Nat) : List Nat :=
  let L := msg.length
  let k := (64 + 56 - ((L + 1) % 64)) % 64
  msg ++ [0x80] ++ List.replicate k 0 ++ beBytes8 (8 * L)

/-- Big-endian grouping of bytes into 32-bit words. -/
def bytesToWords : List Nat → List Nat
  | b0 :: b1 :: b2 :: b3 :: rest =>
      (b0 * 16777216 + b1 * 65536 + b2 * 256 + b3) :: bytesToWords rest
  | _ => []

/-- Extends a 16-word block to a 64-word message schedule. -/
def extendW (block : List Nat) : List Nat :=
  (List.range 48).foldl
    (fun acc i =>
      let t := 16 + i
      let nw := (smallSigma1 (acc.getD (t - 2) 0) + acc.getD (t - 7) 0 +
                 smallSigma0 (acc.getD (t - 15) 0) + acc.getD (t - 16) 0) % m32
      acc ++ [nw])
    block

/-- One round of the compression function over the state [a,…,h]. -/
def compressStep (w : List Nat) (st : List Nat) (i : Nat) : List Nat :=
  match st with
  | [a, b, c, d, e, f, g, h] =>
      let t1 := (h + bigSigma1 e + chFn e f g + sha256K.getD i 0 + w.getD i 0) % m32
      let t2 := (bigSigma0 a + majFn a b c) % m32
      [(t1 + t2) % m32, a, b, c, (d + t1) % m32, e, f, g]
  | st => st

/-- Compression of one 16-word block into the running hash. -/
def compress (hs : List Nat) (block : List Nat) : List Nat :=
  let w := extendW block
  let fin := (List.range 64).foldl (compressStep w) hs
  match hs, fin with
  | [h0, h1, h2, h3, h4, h5, h6, h7], [a, b, c, d, e, f, g, h] =>
      [(h0 + a) % m32, (h1 + b) % m32, (h2 + c) % m32, (h3 + d) % m32,
       (h4 + e) % m32, (h5 + f) % m32, (h6 + g) % m32, (h7 + h) % m32]
  | _, _ => hs

/-- Folds the compression over the 16-word blocks.  The fuel is an upper
bound on the number of blocks, keeping the recursion structural. -/
def sha256Chunks : Nat → List Nat → List Nat → List Nat
  | 0, hs, _ => hs
  | _, hs, [] => hs
  | fuel + 1, hs, w :: rest =>
      sha256Chunks fuel (compress hs (w :: rest.take 15)) (rest.drop 15)

/-- SHA-256 of a byte list, as the 32-byte digest. -/
def sha256 (msg : List Nat) : List Nat :=
  let words := bytesToWords (padMessage msg)
  let hs := sha256Chunks words.length sha256H0 words
  hs.foldr (fun w acc => (w >>> 24) % 256 :: (w >>> 16) % 256 :: (w >>> 8) % 256 :: w % 256 :: acc) []

/-- Lowercase hexadecimal digit. -/
def hexDigit (n : Nat) : Char := if n < 10 then Char.ofNat (48 + n) else Char.ofNat (87 + n)

/-- Models hex.EncodeToString over a byte list. -/
def bytesToHex (bs : List Nat) : List Char :=
  bs.foldr (fun b acc => hexDigit (b / 16) :: hexDigit (b % 16) :: acc) []

/-- Models hex.EncodeToString returning a Go string. -/
def hexString (bs : List Nat) : String := ⟨bytesToHex bs⟩

/-- Bytes of an ASCII string, as the registry streams them. -/
def asciiBytes (s : String) : List Nat := s.data.map Char.toNat

/-! ## Name and version validators (pkg/registry validators)

Source: the validators file of the registry package (`validateName`,
`validateVersionString`, `validateNamespace`, `validateIdentifier`,
`validateReference`, `validateChannelReference`, `validateChannelInfo`). -/

/-- Whether a character may appear in the middle of a name:
lowercase letter, digit, or hyphen. -/
def isNameChar (c : Char) : Bool := isLowerAlphaNum c || c = '-'

/-- Models the anchored match of the compiled pattern
`[a-z0-9]([a-z0-9-]{0,61}[a-z0-9])?` on a rune sequence: a single
alphanumeric, or 2 to 63 characters whose first and last are alphanumeric
and whose middle characters are alphanumeric or hyphen. -/
def nameRegexMatches : List Char → Bool
  | [] => false
  | [c] => isLowerAlphaNum c
  | c :: rest =>
      isLowerAlphaNum c && rest.length ≤ 62 && rest.dropLast.all isNameChar &&
        isLowerAlphaNum (rest.getLastD ' ')

/-- Models registry.validateName.  Go measures the length in bytes; the model
measures runes.  The two measures agree on ASCII input, and any input on
which they disagree contains a non-ASCII rune and is rejected by the pattern
check in both, so the success/failure outcome is identical. -/
def validateName (name : String) : Except String Unit :=
  if name = "" then .error "name cannot be empty"
  else if name.length > 63 then .error "name cannot exceed 63 characters"
  else if !(nameRegexMatches name.data) then
    .error "name must contain only lowercase letters, numbers, and hyphens, and must start and end with an alphanumeric character"
  else .ok ()

/-- Whether a sequence of digits has no leading zero (beyond the single "0"). -/
def noLeadingZeros : List Char → Bool
  | [] => false
  | ['0'] => true
  | c :: _ => c ≠ '0'

/-- Whether an identifier sequence is a valid numeric semver component:
non-empty digits without leading zeros. -/
def numericComponentOk (cs : List Char) : Bool :=
  cs ≠ [] && cs.all isDigitGo && noLeadingZeros cs

/-- Whether a character may appear in a prerelease or build identifier. -/
def semverIdentChar (c : Char) : Bool := isAlphaNumGo c || c = '-'

/-- Whether a dot-separated prerelease identifier is valid: non-empty,
alphanumeric-or-hyphen, and without leading zeros when purely numeric. -/
def preIdentOk (cs : List Char) : Bool :=
  cs ≠ [] && cs.all semverIdentChar && (!(cs.all isDigitGo) || noLeadingZeros cs)

/-- Whether a dot-separated build identifier is valid. -/
def buildIdentOk (cs : List Char) : Bool := cs ≠ [] && cs.all semverIdentChar

/-- Modelled from the spec: reference.ParseVersion, the semantic-version
parser of the reference package, is not among the provided sources (only its
callers are).  Validity per spec section 4.2: `MAJOR.MINOR.PATCH` of
non-negative integers without leading zeros, an optional dot-separated
prerelease of `[0-9A-Za-z-]+` identifiers (numeric ones without leading
zeros), and an optional dot-separated build of `[0-9A-Za-z-]+`. -/
def semverValid (s : String) : Bool :=
  let cs := s.data
  let (beforeBuild, build) :=
    match cutList ['+'] cs with
    | some (a, b) => (a, some b)
    | none => (cs, none)
  let (core, pre) :=
    match cutList ['-'] beforeBuild with
    | some (a, b) => (a, some b)
    | none => (beforeBuild, none)
  (match splitOnChar '.' core with
   | [ma, mi, pa] => numericComponentOk ma && numericComponentOk mi && numericComponentOk pa
   | _ => false) &&
  (match pre with
   | none => true
   | some p => (splitOnChar '.' p).all preIdentOk) &&
  (match build with
   | none => true
   | some b => (splitOnChar '.' b).all buildIdentOk)

/-- Models registry.validateVersionString. -/
def validateVersionString (version : String) : Except String Unit :=
  if semverValid version then .ok ()
  else .error "invalid version format: must be semantic version (e.g., 1.2.3, 1.0.0-alpha.1)"

/-- Models registry.validateNamespace. -/
def validateNamespace (ns : String) : Except String Unit := validateName ns

/-- Models registry.validateIdentifier (namespace + resource). -/
def validateIdentifier (ns resource : String) : Except String Unit := do
  let _ ← validateName ns
  validateName resource

/-- Models registry.validateReference (namespace + resource + version). -/
def validateReference (ns resource version : String) : Except String Unit := do
  let _ ← validateName ns
  let _ ← validateName resource
  validateVersionString version

/-- Models registry.validateChannelReference (namespace + resource + channel). -/
def validateChannelReference (ns resource channel : String) : Except String Unit := do
  let _ ← validateName ns
  let _ ← validateName resource
  validateName channel

/-- Mutable channel properties, as in the ChannelInfo wire shape. -/
structure ChannelInfo where
  name : String
  version : String
  description : String
deriving DecidableEq, Repr

/-- Models registry.validateChannelInfo. -/
def validateChannelInfo (ns resource : String) (info : ChannelInfo) : Except String Unit := do
  let _ ← validateName ns
  let _ ← validateName resource
  let _ ← validateName info.name
  validateVersionString info.version

/-! ## Registry data model (schema.sql rows and wire shapes) -/

/-- A row of the namespaces table. -/
structure NamespaceRow where
  name : String
  description : String
  createdAt : Int
  updatedAt : Int
deriving DecidableEq, Repr

/-- A row of the resources table. -/
structure ResourceRow where
  ns : String
  name : String
  rtype : String
  description : String
  createdAt : Int
  updatedAt : Int
deriving DecidableEq, Repr

/-- A row of the versions table; the archive triple is NULL until upload. -/
structure VersionRow where
  ns : String
  resource : String
  string : String
  digest : Option String
  size : Option Int
  path : Option String
  createdAt : Int
  updatedAt : Int
deriving DecidableEq, Repr

/-- A row of the channels table. -/
structure ChannelRow where
  ns : String
  resource : String
  name : String
  description : String
  version : String
  createdAt : Int
  updatedAt : Int
deriving DecidableEq, Repr

/-- The four tables of the registry database. -/
structure RegistryDB where
  namespaces : List NamespaceRow
  resources : List ResourceRow
  versions : List VersionRow
  channels : List ChannelRow
deriving DecidableEq, Repr

/-- The empty database. -/
def emptyDB : RegistryDB := ⟨[], [], [], []⟩

/-- Mutable namespace properties (NamespaceInfo wire shape). -/
structure NamespaceInfo where
  name : String
  description : String
deriving DecidableEq, Repr

/-- Summary wire shape for namespace listings. -/
structure NamespaceSummary where
  name : String
  description : String
  resourceCount : Nat
  createdAt : Int
  updatedAt : Int
deriving DecidableEq, Repr

/-- Summary wire shape for resource listings. -/
structure ResourceSummary where
  name : String
  rtype : String
  description : String
  latestVersion : Option String
  versionCount : Nat
  channelCount : Nat
  createdAt : Int
  updatedAt : Int
deriving DecidableEq, Repr

/-- The Namespace wire shape with resource summaries. -/
structure NamespaceObj where
  name : String
  description : String
  resources : List ResourceSummary
  createdAt : Int
  updatedAt : Int
deriving DecidableEq, Repr

/-- The Version wire shape with optional archive details. -/
structure VersionObj where
  ns : String
  resource : String
  string : String
  digest : Option String
  size : Option Int
  archive : Option String
  createdAt : Int
  updatedAt : Int
deriving DecidableEq, Repr

/-- The Channel wire shape embedding a Version object. -/
structure ChannelObj where
  ns : String
  resource : String
  name : String
  description : String
  version : VersionObj
  createdAt : Int
  updatedAt : Int
deriving DecidableEq, Repr

/-- Error codes of the registry error taxonomy. -/
inductive ErrorCode
  | badRequest
  | notFound
  | namespaceExists
  | namespaceNotEmpty
  | resourceExists
  | resourceHasPublished
  | versionExists
  | versionPublished
  | channelExists
  | preconditionFailed
  | unsupportedMediaType
  | notAcceptable
  | internalError
deriving DecidableEq, Repr

/-- The Error wire shape: machine code plus human message. -/
structure RegError where
  code : ErrorCode
  message : String
deriving DecidableEq, Repr

/-- An error the raw database layer reports: either the no-rows sentinel or
a driver failure (constraint violation, I/O, …) with its message. -/
inductive DbError
  | noRows
  | failure (msg : String)
deriving DecidableEq, Repr

/-! ## Blob store paths (pkg/registry/storage.go) -/

/-- Suffix for temporary upload files. -/
def TemporaryUploadSuffix : String := ".upload.tmp"

/-- Default file extension for zstd-compressed tar archives (pkg/archive). -/
def ArchiveFileExtension : String := ".tar.zst"

/-- Models filepath.Join over already-clean components: empty components are
skipped and the rest joined with slashes.  (filepath.Join additionally runs
Clean on the result; for the clean archive root and the validated,
slash-free name components used here Clean is the identity.) -/
def joinPath (elems : List String) : String :=
  String.intercalate "/" (elems.filter (fun e => !(e == "")))

/-- Models SQLRegistry.archiveDirectoryPath:
archiveRoot/namespace/resource/version. -/
def archiveDirectoryPath (root ns resource version : String) : String :=
  joinPath [root, ns, resource, version]

/-- Models SQLRegistry.archiveFinalPath: the archive directory joined with
digest plus the archive extension. -/
def archiveFinalPath (root ns resource version digest : String) : String :=
  joinPath [archiveDirectoryPath root ns resource version, digest ++ ArchiveFileExtension]

/-- Models SQLRegistry.storeArchiveFile: the digest is "sha256:" plus the
lowercase hex of the SHA-256 of the streamed bytes, the path is the
digest-named file in the version directory, and the size is the byte count.
The temp-file staging (create .upload.tmp, tee into hasher, rename) has the
net filesystem effect of creating the final path, which the caller records. -/
def storeArchiveFile (root ns resource version : String) (b : List Nat) :
    String × String × Int :=
  let digest := "sha256:" ++ hexString (sha256 b)
  (digest, archiveFinalPath root ns resource version digest, (b.length : Int))

/-! ## SQL statement semantics

Each function models one parameterised statement of pkg/registry/sql under
the schema of schema.sql (composite primary keys, foreign keys ON DELETE
RESTRICT).  Inserts report a driver failure on key conflict or missing
parent; updates report the affected row count; deletes report a driver
failure when a deleted row still has referencing children. -/

/-- Row predicate for the namespaces primary key. -/
def nsMatch (name : String) (r : NamespaceRow) : Bool := r.name == name

/-- Row predicate for the resources primary key. -/
def resMatch (ns name : String) (r : ResourceRow) : Bool :=
  r.ns == ns && r.name == name

/-- Row predicate for the versions primary key. -/
def verMatch (ns resource version : String) (r : VersionRow) : Bool :=
  r.ns == ns && r.resource == resource && r.string == version

/-- Row predicate for the channels primary key. -/
def chMatch (ns resource name : String) (r : ChannelRow) : Bool :=
  r.ns == ns && r.resource == resource && r.name == name

/-- Models namespaces/insert.sql: INSERT a namespace row. -/
def sqlNamespacesInsert (db : RegistryDB) (name description : String)
    (createdAt updatedAt : Int) : Except DbError RegistryDB :=
  if db.namespaces.any (nsMatch name) then .error (.failure "UNIQUE constraint failed")
  else .ok { db with namespaces := db.namespaces ++ [⟨name, description, createdAt, updatedAt⟩] }

/-- Models namespaces/get.sql: SELECT one namespace row by name. -/
def sqlNamespacesGet (db : RegistryDB) (name : String) : Option NamespaceRow :=
  db.namespaces.find? (nsMatch name)

/-- Models namespaces/update.sql: UPDATE description and updated_at WHERE
name matches; reports the new table and the affected row count. -/
def sqlNamespacesUpdate (db : RegistryDB) (description : String) (now : Int)
    (name : String) : RegistryDB × Nat :=
  ({ db with namespaces := db.namespaces.map (fun r =>
       if nsMatch name r then { r with description := description, updatedAt := now } else r) },
   (db.namespaces.filter (nsMatch name)).length)

/-- Models namespaces/delete.sql under ON DELETE RESTRICT: deleting a
namespace row that still owns resources is a constraint failure; deleting
zero rows succeeds. -/
def sqlNamespacesDelete (db : RegistryDB) (name : String) : Except DbError RegistryDB :=
  if db.namespaces.any (fun r => nsMatch name r && db.resources.any (fun s => s.ns == r.name)) then
    .error (.failure "FOREIGN KEY constraint failed")
  else .ok { db with namespaces := db.namespaces.filter (fun r => !(nsMatch name r)) }

/-- Models resources/get.sql: SELECT one resource row. -/
def sqlResourcesGet (db : RegistryDB) (ns name : String) : Option ResourceRow :=
  db.resources.find? (resMatch ns name)

/-- Models resources/delete.sql under ON DELETE RESTRICT: versions and
channels both reference resources. -/
def sqlResourcesDelete (db : RegistryDB) (ns name : String) : Except DbError RegistryDB :=
  if db.resources.any (fun r => resMatch ns name r &&
      (db.versions.any (fun v => v.ns == r.ns && v.resource == r.name) ||
       db.channels.any (fun c => c.ns == r.ns && c.resource == r.name))) then
    .error (.failure "FOREIGN KEY constraint failed")
  else .ok { db with resources := db.resources.filter (fun r => !(resMatch ns name r)) }

/-- Models versions/get.sql: SELECT one version row. -/
def sqlVersionsGet (db : RegistryDB) (ns resource version : String) : Option VersionRow :=
  db.versions.find? (verMatch ns resource version)

/-- Models versions/delete.sql under ON DELETE RESTRICT: channels reference
versions. -/
def sqlVersionsDelete (db : RegistryDB) (ns resource version : String) :
    Except DbError RegistryDB :=
  if db.versions.any (fun v => verMatch ns resource version v &&
      db.channels.any (fun c => c.ns == v.ns && c.resource == v.resource && c.version == v.string)) then
    .error (.failure "FOREIGN KEY constraint failed")
  else .ok { db with versions := db.versions.filter (fun v => !(verMatch ns resource version v)) }

/-- Models versions/upload.sql: UPDATE digest, size, path, updated_at WHERE
the version key matches; reports the new table and the affected row count. -/
def sqlVersionsUpload (db : RegistryDB) (digest : String) (size : Int) (path : String)
    (now : Int) (ns resource version : String) : RegistryDB × Nat :=
  ({ db with versions := db.versions.map (fun r =>
       if verMatch ns resource version r then
         { r with digest := some digest, size := some size, path := some path, updatedAt := now }
       else r) },
   (db.versions.filter (verMatch ns resource version)).length)

/-- Models channels/insert.sql: INSERT a channel row; key conflicts and the
two foreign keys (resource, and target version within the same resource)
are driver failures. -/
def sqlChannelsInsert (db : RegistryDB) (ns resource name description version : String)
    (createdAt updatedAt : Int) : Except DbError RegistryDB :=
  if db.channels.any (chMatch ns resource name) then .error (.failure "UNIQUE constraint failed")
  else if !(db.resources.any (resMatch ns resource)) ||
          !(db.versions.any (verMatch ns resource version)) then
    .error (.failure "FOREIGN KEY constraint failed")
  else .ok { db with channels :=
    db.channels ++ [⟨ns, resource, name, description, version, createdAt, updatedAt⟩] }

/-- Models channels/update.sql: UPDATE description, version, updated_at WHERE
the channel key matches; retargeting an existing channel at a version that
does not exist violates the versions foreign key. -/
def sqlChannelsUpdate (db : RegistryDB) (description version : String) (now : Int)
    (ns resource name : String) : Except DbError (RegistryDB × Nat) :=
  let matched := (db.channels.filter (chMatch ns resource name)).length
  if matched ≠ 0 && !(db.versions.any (verMatch ns resource version)) then
    .error (.failure "FOREIGN KEY constraint failed")
  else
    .ok ({ db with channels := db.channels.map (fun r =>
             if chMatch ns resource name r then
               { r with description := description, version := version, updatedAt := now }
             else r) },
          matched)

/-- Models channels/delete.sql: DELETE the channel row; nothing references
channels, so the statement always succeeds. -/
def sqlChannelsDelete (db : RegistryDB) (ns resource name : String) : RegistryDB :=
  { db with channels := db.channels.filter (fun r => !(chMatch ns resource name r)) }

/-! ## Raw database layer (the db helpers of pkg/registry)

These mirror the lowercase helpers insertNamespace, getNamespace,
updateNamespace, deleteNamespace, getResource, deleteResource, getVersion,
deleteVersion, insertChannel, updateChannel, getChannel, deleteChannel,
listNamespaces, listResources, uploadArchive.  Each takes the clock value
the helper reads from time.Now().Unix() as an explicit argument. -/

/-- Models insertNamespace: INSERT, then build the response object with both
timestamps set to now and an empty resources list. -/
def insertNamespace (now : Int) (db : RegistryDB) (info : NamespaceInfo) :
    Except DbError (NamespaceObj × RegistryDB) :=
  match sqlNamespacesInsert db info.name info.description now now with
  | .error e => .error e
  | .ok db' => .ok (⟨info.name, info.description, [], now, now⟩, db')

/-- Models getNamespace: QueryRow + Scan, sql.ErrNoRows on a miss; the
resources list is not populated here. -/
def getNamespace (db : RegistryDB) (name : String) : Except DbError NamespaceObj :=
  match sqlNamespacesGet db name with
  | none => .error .noRows
  | some r => .ok ⟨r.name, r.description, [], r.createdAt, r.updatedAt⟩

/-- Models updateNamespace: UPDATE, sql.ErrNoRows when no row was affected,
then a fresh getNamespace for the post-image. -/
def updateNamespace (now : Int) (db : RegistryDB) (ns : String) (info : NamespaceInfo) :
    Except DbError (NamespaceObj × RegistryDB) :=
  let (db', rows) := sqlNamespacesUpdate db info.description now ns
  if rows = 0 then .error .noRows
  else
    match getNamespace db' ns with
    | .error e => .error e
    | .ok obj => .ok (obj, db')

/-- Models deleteNamespace: a bare DELETE whose affected row count is never
inspected — deleting a missing namespace is a success. -/
def deleteNamespace (db : RegistryDB) (ns : String) : Except DbError RegistryDB :=
  sqlNamespacesDelete db ns

/-- Models getResource: QueryRow + Scan, sql.ErrNoRows on a miss. -/
def getResource (db : RegistryDB) (ns resource : String) : Except DbError ResourceRow :=
  match sqlResourcesGet db ns resource with
  | none => .error .noRows
  | some r => .ok r

/-- Models deleteResource: a bare DELETE, affected rows never inspected. -/
def deleteResource (db : RegistryDB) (ns resource : String) : Except DbError RegistryDB :=
  sqlResourcesDelete db ns resource

/-- Models getVersion: QueryRow + Scan; the digest, size and path columns
populate the optional archive fields when non-NULL. -/
def getVersion (db : RegistryDB) (ns resource version : String) : Except DbError VersionObj :=
  match sqlVersionsGet db ns resource version with
  | none => .error .noRows
  | some r => .ok ⟨ns, resource, r.string, r.digest, r.size, r.path, r.createdAt, r.updatedAt⟩

/-- Models deleteVersion: a bare DELETE, affected rows never inspected. -/
def deleteVersion (db : RegistryDB) (ns resource version : String) : Except DbError RegistryDB :=
  sqlVersionsDelete db ns resource version

/-- Models insertChannel: a bare INSERT returning the raw driver error. -/
def insertChannel (now : Int) (db : RegistryDB) (ns resource : String) (info : ChannelInfo) :
    Except DbError RegistryDB :=
  sqlChannelsInsert db ns resource info.name info.description info.version now now

/-- Models getChannel: the channels/versions join of channels/get.sql.  The
scan reads the joined digest, size and path columns, but the code copies
only the digest into the embedded Version object; Size and Archive keep
their zero value nil. -/
def getChannel (db : RegistryDB) (ns resource channel : String) : Except DbError ChannelObj :=
  match db.channels.find? (chMatch ns resource channel) with
  | none => .error .noRows
  | some c =>
    match db.versions.find? (verMatch ns resource c.version) with
    | none => .error .noRows
    | some v =>
      .ok ⟨ns, resource, c.name, c.description,
           ⟨ns, resource, c.version, v.digest, none, none, v.createdAt, v.updatedAt⟩,
           c.createdAt, c.updatedAt⟩

/-- Models updateChannel: UPDATE keyed on info.Name, sql.ErrNoRows when no
row was affected, then a fresh getChannel for the post-image. -/
def updateChannel (now : Int) (db : RegistryDB) (ns resource : String) (info : ChannelInfo) :
    Except DbError (ChannelObj × RegistryDB) :=
  match sqlChannelsUpdate db info.description info.version now ns resource info.name with
  | .error e => .error e
  | .ok (db', rows) =>
    if rows = 0 then .error .noRows
    else
      match getChannel db' ns resource info.name with
      | .error e => .error e
      | .ok obj => .ok (obj, db')

/-- Models deleteChannel: a bare DELETE, affected rows never inspected. -/
def deleteChannel (db : RegistryDB) (ns resource channel : String) : Except DbError RegistryDB :=
  .ok (sqlChannelsDelete db ns resource channel)

/-- Models listNamespaces over namespaces/list.sql: the query selects name,
description, created_at and a LEFT JOIN resource count, and the scan fills
exactly those four summary fields — UpdatedAt is never read and keeps the Go
zero value.  The ORDER BY name clause affects only the order of the rows and
is not modelled. -/
def listNamespaces (db : RegistryDB) : List NamespaceSummary :=
  db.namespaces.map (fun r =>
    ⟨r.name, r.description, (db.resources.filter (fun s => s.ns == r.name)).length,
     r.createdAt, 0⟩)

/-- Largest string of a list under lexicographic byte order (SQL MAX). -/
def maxString (l : List String) : Option String :=
  l.foldl (fun acc s => match acc with
    | none => some s
    | some m => if m < s then some s else some m) none

/-- Models listResources over resources/list.sql: per resource, the distinct
version count, distinct channel count and MAX(versions.string); ORDER BY
name affects only row order and is not modelled. -/
def listResources (db : RegistryDB) (ns : String) : List ResourceSummary :=
  (db.resources.filter (fun r => r.ns == ns)).map (fun r =>
    let verStrings := (db.versions.filter (fun v => v.ns == r.ns && v.resource == r.name)).map (·.string)
    let chNames := (db.channels.filter (fun c => c.ns == r.ns && c.resource == r.name)).map (·.name)
    ⟨r.name, r.rtype, r.description, maxString verStrings,
     verStrings.dedup.length, chNames.dedup.length, r.createdAt, r.updatedAt⟩)

/-- Models the uploadArchive db helper (versions/upload.sql + RowsAffected):
sets the archive triple and updated_at, reporting sql.ErrNoRows when the
version row does not exist.  The fault argument injects a driver failure
(I/O error, constraint violation, …) to model the "any other reason"
failures of the underlying database. -/
def uploadArchive (now : Int) (db : RegistryDB) (ns resource version digest path : String)
    (size : Int) (fault : Option String) : Except DbError RegistryDB :=
  match fault with
  | some m => .error (.failure m)
  | none =>
    let (db', rows) := sqlVersionsUpload db digest size path now ns resource version
    if rows = 0 then .error .noRows else .ok db'

/-! ## Registry facade (pkg/registry/sqlregistry.go)

Each operation validates its inputs, then talks to the database.  The
`dbAccess` flag records whether any SQL statement was reached; every path
past validation executes at least one.  Operations that mutate take the
clock value the facade reads as an explicit `now`. -/

deriving instance DecidableEq for Except

/-- Result of a facade operation: the response or error, the database
post-state, and whether the database was accessed at all. -/
structure RegOut (α : Type) where
  result : Except RegError α
  db : RegistryDB
  dbAccess : Bool

/-- Models SQLRegistry.CreateNamespace: validate, insert, and on an insert
failure probe for an existing row before reporting. -/
def CreateNamespace (now : Int) (db : RegistryDB) (info : NamespaceInfo) :
    RegOut NamespaceObj :=
  match validateNamespace info.name with
  | .error m => ⟨.error ⟨.badRequest, m⟩, db, false⟩
  | .ok _ =>
    match insertNamespace now db info with
    | .ok (ns, db') => ⟨.ok ns, db', true⟩
    | .error _ =>
      match getNamespace db info.name with
      | .ok _ => ⟨.error ⟨.namespaceExists, "namespace already exists"⟩, db, true⟩
      | .error _ =>
        ⟨.error ⟨.internalError, "unable to create namespace due to internal error"⟩, db, true⟩

/-- Models SQLRegistry.ReadNamespace: validate, get, then attach resource
summaries. -/
def ReadNamespace (db : RegistryDB) (ns : String) : RegOut NamespaceObj :=
  match validateNamespace ns with
  | .error m => ⟨.error ⟨.badRequest, m⟩, db, false⟩
  | .ok _ =>
    match getNamespace db ns with
    | .error .noRows => ⟨.error ⟨.notFound, "namespace not found"⟩, db, true⟩
    | .error _ => ⟨.error ⟨.internalError, "unable to retrieve namespace information"⟩, db, true⟩
    | .ok obj => ⟨.ok { obj with resources := listResources db ns }, db, true⟩

/-- Models SQLRegistry.UpdateNamespace: validate, update (not-found on zero
affected rows), then attach resource summaries. -/
def UpdateNamespace (now : Int) (db : RegistryDB) (ns : String) (info : NamespaceInfo) :
    RegOut NamespaceObj :=
  match validateNamespace ns with
  | .error m => ⟨.error ⟨.badRequest, m⟩, db, false⟩
  | .ok _ =>
    match updateNamespace now db ns info with
    | .error .noRows => ⟨.error ⟨.notFound, "namespace not found"⟩, db, true⟩
    | .error _ => ⟨.error ⟨.internalError, "unable to save namespace changes"⟩, db, true⟩
    | .ok (obj, db') => ⟨.ok { obj with resources := listResources db' ns }, db', true⟩

/-- Models SQLRegistry.DeleteNamespace: validate, then a bare delete whose
only failure mode is mapped to internal_error. -/
def DeleteNamespace (db : RegistryDB) (ns : String) : RegOut Unit :=
  match validateNamespace ns with
  | .error m => ⟨.error ⟨.badRequest, m⟩, db, false⟩
  | .ok _ =>
    match deleteNamespace db ns with
    | .error _ =>
      ⟨.error ⟨.internalError, "unable to delete namespace - it may contain resources"⟩, db, true⟩
    | .ok db' => ⟨.ok (), db', true⟩

/-- Models SQLRegistry.ListNamespaces: no validation, one list query. -/
def ListNamespaces (db : RegistryDB) : RegOut (List NamespaceSummary) :=
  ⟨.ok (listNamespaces db), db, true⟩

/-- Models SQLRegistry.DeleteResource: validate, then a bare delete whose
only failure mode is mapped to internal_error. -/
def DeleteResource (db : RegistryDB) (ns resource : String) : RegOut Unit :=
  match validateIdentifier ns resource with
  | .error m => ⟨.error ⟨.badRequest, m⟩, db, false⟩
  | .ok _ =>
    match deleteResource db ns resource with
    | .error _ =>
      ⟨.error ⟨.internalError, "unable to delete resource - it may contain versions or channels"⟩, db, true⟩
    | .ok db' => ⟨.ok (), db', true⟩

/-- Models SQLRegistry.DeleteVersion: validate, then a bare delete whose
only failure mode is mapped to internal_error. -/
def DeleteVersion (db : RegistryDB) (ns resource version : String) : RegOut Unit :=
  match validateReference ns resource version with
  | .error m => ⟨.error ⟨.badRequest, m⟩, db, false⟩
  | .ok _ =>
    match deleteVersion db ns resource version with
    | .error _ =>
      ⟨.error ⟨.internalError, "unable to delete version - it may be referenced by channels"⟩, db, true⟩
    | .ok db' => ⟨.ok (), db', true⟩

/-- Models SQLRegistry.CreateChannel: validate, insert, and on a failure
probe for an existing channel, then for a missing resource. -/
def CreateChannel (now : Int) (db : RegistryDB) (ns resource : String) (info : ChannelInfo) :
    RegOut ChannelObj :=
  match validateChannelInfo ns resource info with
  | .error m => ⟨.error ⟨.badRequest, m⟩, db, false⟩
  | .ok _ =>
    match insertChannel now db ns resource info with
    | .error _ =>
      match getChannel db ns resource info.name with
      | .ok _ => ⟨.error ⟨.channelExists, "channel already exists"⟩, db, true⟩
      | .error _ =>
        match getResource db ns resource with
        | .error .noRows => ⟨.error ⟨.notFound, "resource not found"⟩, db, true⟩
        | _ =>
          ⟨.error ⟨.internalError, "unable to create channel - ensure the target version exists"⟩, db, true⟩
    | .ok db' =>
      match getChannel db' ns resource info.name with
      | .error _ =>
        ⟨.error ⟨.internalError, "unable to retrieve channel information"⟩, db', true⟩
      | .ok c => ⟨.ok c, db', true⟩

/-- Models SQLRegistry.UpdateChannel: validates the ChannelInfo and updates
the row keyed on info.Name (the channel path parameter is not used by the
implementation beyond documentation). -/
def UpdateChannel (now : Int) (db : RegistryDB) (ns resource _channel : String)
    (info : ChannelInfo) : RegOut ChannelObj :=
  match validateChannelInfo ns resource info with
  | .error m => ⟨.error ⟨.badRequest, m⟩, db, false⟩
  | .ok _ =>
    match updateChannel now db ns resource info with
    | .error .noRows => ⟨.error ⟨.notFound, "channel not found"⟩, db, true⟩
    | .error _ =>
      ⟨.error ⟨.internalError, "unable to update channel - ensure the target version exists"⟩, db, true⟩
    | .ok (c, db') => ⟨.ok c, db', true⟩

/-- Models SQLRegistry.ReadChannel: validate, then the joined channel
lookup. -/
def ReadChannel (db : RegistryDB) (ns resource channel : String) : RegOut ChannelObj :=
  match validateChannelReference ns resource channel with
  | .error m => ⟨.error ⟨.badRequest, m⟩, db, false⟩
  | .ok _ =>
    match getChannel db ns resource channel with
    | .error .noRows => ⟨.error ⟨.notFound, "channel not found"⟩, db, true⟩
    | .error _ => ⟨.error ⟨.internalError, "unable to retrieve channel information"⟩, db, true⟩
    | .ok c => ⟨.ok c, db, true⟩

/-- Models SQLRegistry.DeleteChannel: validate, then a bare delete whose
only failure mode is mapped to internal_error. -/
def DeleteChannel (db : RegistryDB) (ns resource channel : String) : RegOut Unit :=
  match validateChannelReference ns resource channel with
  | .error m => ⟨.error ⟨.badRequest, m⟩, db, false⟩
  | .ok _ =>
    match deleteChannel db ns resource channel with
    | .error _ => ⟨.error ⟨.internalError, "unable to delete channel"⟩, db, true⟩
    | .ok db' => ⟨.ok (), db', true⟩

/-- Result of UploadArchive: response or error, database and filesystem
post-states, and whether the database was accessed. -/
structure UploadOut where
  result : Except RegError VersionObj
  db : RegistryDB
  fs : List String
  dbAccess : Bool

/-- Adds a path to the filesystem if absent (os.Create / os.Rename target). -/
def insertFsPath (fs : List String) (p : String) : List String :=
  if fs.contains p then fs else fs ++ [p]

/-- Removes a path from the filesystem (os.Remove). -/
def removeFsPath (fs : List String) (p : String) : List String :=
  fs.filter (fun q => !(q == p))

/-- Models SQLRegistry.UploadArchive: validate; store the blob (hash, stage,
rename to the digest-named final path); update the version metadata; on a
metadata failure remove the blob, then report not_found for sql.ErrNoRows
and internal_error otherwise; on success refetch the version for the
response. -/
def UploadArchive (now : Int) (root : String) (db : RegistryDB) (fs : List String)
    (ns resource version : String) (b : List Nat) (fault : Option String) : UploadOut :=
  match validateReference ns resource version with
  | .error m => ⟨.error ⟨.badRequest, m⟩, db, fs, false⟩
  | .ok _ =>
    let (digest, path, size) := storeArchiveFile root ns resource version b
    let fs1 := insertFsPath fs path
    match uploadArchive now db ns resource version digest path size fault with
    | .error e =>
      let fs2 := removeFsPath fs1 path
      match e with
      | .noRows => ⟨.error ⟨.notFound, "version not found"⟩, db, fs2, true⟩
      | .failure _ => ⟨.error ⟨.internalError, "unable to update archive metadata"⟩, db, fs2, true⟩
    | .ok db' =>
      match getVersion db' ns resource version with
      | .error _ => ⟨.error ⟨.internalError, "unable to retrieve version information"⟩, db', fs1, true⟩
      | .ok v => ⟨.ok v, db', fs1, true⟩

/-! ## Archive codec (pkg/archive)

The tar stream is modelled as the list of its entries; the zstd layer and
I/O errors are outside the model (the reader is given already decoded).
The filesystem is the list of existing paths; directory creation records
the directory path itself (every parent a MkdirAll would add lies on the
same slash-prefixed chain below the destination). -/

/-- Go file mode forced on extracted and archived files. -/
def FileMode : Nat := 0o644

/-- Go directory mode forced on extracted and archived directories. -/
def DirMode : Nat := 0o755

/-- Models io/fs.ValidPath: "." is the valid root; otherwise every
slash-separated element must be non-empty and neither "." nor "..".
UTF-8 validity always holds at rune level. -/
def fsValidPath (s : String) : Bool :=
  s == "." ||
    (splitOnChar '/' s.data).all (fun e => !(e = [] || e = ['.'] || e = ['.', '.']))

/-- Models filepath.Localize on Unix: the path must satisfy fs.ValidPath and
contain no NUL byte; the result is the path itself (slash-separated input is
already in host form). -/
def localizeGo (s : String) : Option String :=
  if fsValidPath s && !(s.data.contains (Char.ofNat 0)) then some s else none

/-- One step of filepath.Clean on a relative path: "" and "." elements drop,
".." pops the previous element unless the output is empty or already ends
in "..". -/
def cleanRelStep (out : List (List Char)) (e : List Char) : List (List Char) :=
  if e = [] || e = ['.'] then out
  else if e = ['.', '.'] then
    match out.getLast? with
    | some l => if l = ['.', '.'] then out ++ [e] else out.dropLast
    | none => out ++ [e]
  else out ++ [e]

/-- Joins path elements with slashes. -/
def joinWithSlash : List (List Char) → List Char
  | [] => []
  | [e] => e
  | e :: rest => e ++ '/' :: joinWithSlash rest

/-- Models filepath.Clean for relative Unix paths. -/
def cleanRel (s : String) : String :=
  let out := (splitOnChar '/' s.data).foldl cleanRelStep []
  if out = [] then "." else ⟨joinWithSlash out⟩

/-- Models filepath.IsLocal on Unix: non-empty, not absolute, and after
cleaning (performed only when dot elements occur) neither ".." nor below
it. -/
def isLocalGo (s : String) : Bool :=
  if s == "" then false
  else if s.data.head? = some '/' then false
  else
    let elems := splitOnChar '/' s.data
    let hasDots := elems.any (fun e => e = ['.'] || e = ['.', '.'])
    let path := if hasDots then cleanRel s else s
    !(path == "..") && !(leadsList ['.', '.', '/'] path.data)

/-- Models filepath.Join of the destination with a localized entry name:
Clean(dest + "/" + name), which for a clean destination and a localized
name collapses only the "." case. -/
def joinUnder (dest p : String) : String :=
  if p == "." then dest else dest ++ "/" ++ p

/-- Models archive.validateAndJoinPath: Localize, then the IsLocal check,
then the join; both failure modes return ErrInvalidPath. -/
def validateAndJoinPath (dest name : String) : Except GoErr String :=
  match localizeGo name with
  | none => .error [.invalidPath]
  | some localName =>
    if !(isLocalGo localName) then .error [.invalidPath]
    else .ok (joinUnder dest localName)

/-- Tar entry types distinguished by the codec. -/
inductive TarEntryType
  | dir
  | reg
  | symlink
  | special
deriving DecidableEq, Repr

/-- A tar entry: its header name and type (contents do not matter here). -/
structure TarEntry where
  name : String
  typ : TarEntryType
deriving DecidableEq, Repr

/-- Models archive.extractEntry: directories and regular files are created
at the target (MkdirAll of the parent chain stays below the target);
every other type is ErrUnsupportedFileType. -/
def extractEntryFs (e : TarEntry) (target : String) (fs : List String) :
    Except GoErr (List String) :=
  match e.typ with
  | .dir => .ok (insertFsPath fs target)
  | .reg => .ok (insertFsPath fs target)
  | _ => .error [.unsupportedFileType]

/-- Models archive.readTar: entries in order, each name validated and joined
before its entry is extracted; the first error stops the loop. -/
def readTarFs (dest : String) : List TarEntry → List String → Option GoErr × List String
  | [], fs => (none, fs)
  | e :: rest, fs =>
    match validateAndJoinPath dest e.name with
    | .error err => (some err, fs)
    | .ok target =>
      match extractEntryFs e target fs with
      | .error err => (some err, fs)
      | .ok fs' => readTarFs dest rest fs'

/-- Whether a path is the directory itself or strictly below it. -/
def isUnderOrAt (dir p : String) : Bool := p == dir || leadsList (dir ++ "/").data p.data

/-- Models os.RemoveAll: the directory and everything below it disappear. -/
def removeAllFs (fs : List String) (dir : String) : List String :=
  fs.filter (fun p => !(isUnderOrAt dir p))

/-- Models archive.extractToDirectory: MkdirAll(dest), read the tar, and on
any error remove dest and everything extracted into it. -/
def extractToDirectory (entries : List TarEntry) (dest : String) (fs : List String) :
    Option GoErr × List String :=
  let fs1 := insertFsPath fs dest
  match readTarFs dest entries fs1 with
  | (some err, fs2) => (some err, removeAllFs fs2 dest)
  | (none, fs2) => (none, fs2)

/-- Models archive.ExtractFromReader: fail if dest already exists, else
extract; errors are wrapped in ErrExtractFailed. -/
def ExtractFromReader (entries : List TarEntry) (dest : String) (fs : List String) :
    Option GoErr × List String :=
  if fs.contains dest then (some (goWrap .extractFailed [.fileExists]), fs)
  else
    match extractToDirectory entries dest fs with
    | (some err, fs') => (some (goWrap .extractFailed err), fs')
    | (none, fs') => (none, fs')

/-- Walk entry types the archive creator meets under filepath.WalkDir. -/
inductive WalkEntryType
  | dir
  | regular
  | symlink
  | special
deriving DecidableEq, Repr

/-- A directory-walk entry: its path relative to the source root (already
slash-separated) and its file type. -/
structure WalkEntry where
  relPath : String
  typ : WalkEntryType
deriving DecidableEq, Repr

/-- A tar header the creator writes: slash path and forced mode. -/
structure TarHeader where
  name : String
  mode : Nat
deriving DecidableEq, Repr

/-- Models archive.writeEntry: symlinks and special files are
ErrUnsupportedFileType; files get mode 0644, directories 0755, and the
relative path (ToSlash is the identity for the slash-separated model). -/
def writeEntry (e : WalkEntry) : Except GoErr TarHeader :=
  match e.typ with
  | .symlink => .error [.unsupportedFileType]
  | .special => .error [.unsupportedFileType]
  | .dir => .ok ⟨e.relPath, DirMode⟩
  | .regular => .ok ⟨e.relPath, FileMode⟩

/-- Models archive.writeTar: the walk visits entries in order and stops at
the first error. -/
def writeTar : List WalkEntry → Except GoErr (List TarHeader)
  | [] => .ok []
  | e :: rest =>
    match writeEntry e with
    | .error err => .error err
    | .ok h =>
      match writeTar rest with
      | .error err => .error err
      | .ok hs => .ok (h :: hs)

/-- Models archive.Create: os.Create(dest), write the tar, and on any error
remove the partial archive; errors are wrapped in ErrCreateFailed. -/
def Create (walk : List WalkEntry) (dest : String) (fs : List String) :
    Option GoErr × List String :=
  let fs1 := insertFsPath fs dest
  match writeTar walk with
  | .error err => (some (goWrap .createFailed err), removeFsPath fs1 dest)
  | .ok _ => (none, fs1)

/-! ## Reference identifier parser (pkg/reference)

The whitespace-tokenized identifier grammar: an optional type token, then a
location token in one of three shapes.  The compiled patterns are modelled
as rune-level matchers. -/

/-- Default protocol scheme. -/
def DefaultScheme : String := "https"

/-- Default registry authority. -/
def DefaultRegistry : String := "registry.crucible.net"

/-- Default namespace for resources in the default registry. -/
def DefaultNamespace : String := "official"

/-- Resource identifier: type, scheme, registry, and either a raw path or a
namespace/name pair. -/
structure Identifier where
  typ : String
  scheme : String
  registry : String
  ns : String
  name : String
  path : String
deriving DecidableEq, Repr

/-- Options for parsing identifiers; empty fields mean "use the package
default", a missing options value means all defaults. -/
structure IdentifierOptions where
  defaultScheme : String
  defaultRegistry : String
  defaultNamespace : String
deriving DecidableEq, Repr

/-- Models (*IdentifierOptions).scheme with its nil-safe receiver. -/
def optScheme : Option IdentifierOptions → String
  | some o => if o.defaultScheme ≠ "" then o.defaultScheme else DefaultScheme
  | none => DefaultScheme

/-- Models (*IdentifierOptions).registry with its nil-safe receiver. -/
def optRegistry : Option IdentifierOptions → String
  | some o => if o.defaultRegistry ≠ "" then o.defaultRegistry else DefaultRegistry
  | none => DefaultRegistry

/-- Models (*IdentifierOptions).namespace with its nil-safe receiver. -/
def optNamespace : Option IdentifierOptions → String
  | some o => if o.defaultNamespace ≠ "" then o.defaultNamespace else DefaultNamespace
  | none => DefaultNamespace

/-- Models the anchored typePattern `[a-z]+`: non-empty lowercase ASCII
letters. -/
def typeMatches (cs : List Char) : Bool := !(cs = []) && cs.all isLowerAlpha

/-- Models the anchored schemePattern `[a-z][a-z0-9+.-]*`. -/
def schemeMatches : List Char → Bool
  | [] => false
  | c :: rest =>
      isLowerAlpha c && rest.all (fun x => isLowerAlphaNum x || x = '+' || x = '.' || x = '-')

/-- Models one registry hostname label `[A-Za-z0-9]([A-Za-z0-9-]*[A-Za-z0-9])?`. -/
def isRegLabel : List Char → Bool
  | [] => false
  | [c] => isAlphaNumGo c
  | c :: rest =>
      isAlphaNumGo c && rest.dropLast.all (fun x => isAlphaNumGo x || x = '-') &&
        isAlphaNumGo (rest.getLastD ' ')

/-- Models the anchored registryPattern: two or more dot-separated labels,
an optional trailing dot, and an optional `:port` of digits. -/
def registryMatches (cs : List Char) : Bool :=
  let hostAndPort :=
    match cutList [':'] cs with
    | some (h, p) => (h, some p)
    | none => (cs, none)
  (match hostAndPort.2 with
   | none => true
   | some p => !(p = []) && p.all isDigitGo) &&
  (let parts := splitOnChar '.' hostAndPort.1
   let parts' := if parts.getLast? = some [] then parts.dropLast else parts
   decide (2 ≤ parts'.length) && parts'.all isRegLabel)

/-- Models the anchored namePattern of the reference package
`[a-z]([a-z0-9-]{0,126}[a-z0-9])?`. -/
def refNameMatches : List Char → Bool
  | [] => false
  | [c] => isLowerAlpha c
  | c :: rest =>
      isLowerAlpha c && rest.length ≤ 127 && rest.dropLast.all isNameChar &&
        isLowerAlphaNum (rest.getLastD ' ')

/-- Models the anchored pathPattern `[a-z0-9/_.-]+`. -/
def pathMatches (cs : List Char) : Bool :=
  !(cs = []) && cs.all (fun c => isLowerAlphaNum c || c = '/' || c = '_' || c = '.' || c = '-')

/-- Models reference.looksLikeRegistry: contains a dot or a colon. -/
def looksLikeRegistry (s : String) : Bool := containsChar s.data '.' || containsChar s.data ':'

/-- Models identifierParser.parseType: decides whether the first token is a
type token, and if so checks it against the context type and consumes it.
Returns the remaining tokens. -/
def parseTypeStep (contextType : String) (tokens : List String) : Except GoErr (List String) :=
  match tokens with
  | [] => .ok tokens
  | tok :: rest =>
    if !(typeMatches tok.data) then .ok tokens
    else
      match rest with
      | [] => .ok tokens
      | next :: _ =>
        if !(containsChar next.data '/') && !(looksLikeRegistry next) then .ok tokens
        else if tok ≠ contextType then
          .error (goWrap .typeMismatch [.otherMsg "type does not match context"])
        else .ok rest

/-- Models identifierParser.parseURI for the scheme://registry/path shape. -/
def parseURI (scheme rest : String) : Except GoErr Identifier :=
  if !(schemeMatches scheme.data) then
    .error (goWrap .invalidIdentifier [.otherMsg "invalid scheme"])
  else
    match cutList ['/'] rest.data with
    | none => .error (goWrap .invalidIdentifier [.missingRegistry])
    | some (registry, path) =>
      if registry = [] then .error (goWrap .invalidIdentifier [.missingRegistry])
      else if path = [] then .error (goWrap .invalidIdentifier [.missingPath])
      else if !(registryMatches registry) then
        .error (goWrap .invalidIdentifier [.otherMsg "invalid registry"])
      else if !(pathMatches path) then
        .error (goWrap .invalidIdentifier [.otherMsg "invalid path"])
      else .ok ⟨"", scheme, ⟨registry⟩, "", "", ⟨path⟩⟩

/-- Models identifierParser.parseRegistryPath for the registry/path shape. -/
def parseRegistryPath (opts : Option IdentifierOptions) (registry path : String) :
    Except GoErr Identifier :=
  if !(registryMatches registry.data) then
    .error (goWrap .invalidIdentifier [.otherMsg "invalid registry"])
  else if path = "" then .error (goWrap .invalidIdentifier [.emptyPath])
  else if !(pathMatches path.data) then
    .error (goWrap .invalidIdentifier [.otherMsg "invalid path"])
  else .ok ⟨"", optScheme opts, registry, "", "", path⟩

/-- Models identifierParser.parseDefaultPath for namespace/name or name. -/
def parseDefaultPath (opts : Option IdentifierOptions) (tok : String) :
    Except GoErr Identifier :=
  match cutList ['/'] tok.data with
  | some (nsp, name) =>
    if !(refNameMatches nsp) then .error (goWrap .invalidIdentifier [.otherMsg "invalid namespace"])
    else if !(refNameMatches name) then .error (goWrap .invalidIdentifier [.otherMsg "invalid name"])
    else .ok ⟨"", optScheme opts, optRegistry opts, ⟨nsp⟩, ⟨name⟩, ""⟩
  | none =>
    if !(refNameMatches tok.data) then .error (goWrap .invalidIdentifier [.otherMsg "invalid name"])
    else .ok ⟨"", optScheme opts, optRegistry opts, optNamespace opts, tok, ""⟩

/-- Models identifierParser.parseLocation: dispatch on the three location
shapes. -/
def parseLocation (opts : Option IdentifierOptions) (tok : String) : Except GoErr Identifier :=
  match cutList "://".data tok.data with
  | some (scheme, rest) => parseURI ⟨scheme⟩ ⟨rest⟩
  | none =>
    match cutList ['/'] tok.data with
    | some (first, _) =>
      if looksLikeRegistry ⟨first⟩ then
        match cutList ['/'] tok.data with
        | some (registry, path) => parseRegistryPath opts ⟨registry⟩ ⟨path⟩
        | none => parseDefaultPath opts tok
      else parseDefaultPath opts tok
    | none => parseDefaultPath opts tok

/-- Models identifierParser.parse: the context type must match the type
pattern before anything else; then the optional type token, the location
token, and a check that no tokens remain. -/
def identParse (contextType : String) (opts : Option IdentifierOptions)
    (tokens : List String) : Except GoErr Identifier :=
  if !(typeMatches contextType.data) then
    .error (goWrap .invalidIdentifier [.invalidContextType])
  else if tokens = [] then .error (goWrap .invalidIdentifier [.emptyIdentifier])
  else
    match parseTypeStep contextType tokens with
    | .error e => .error e
    | .ok rest =>
      match rest with
      | [] => .error (goWrap .invalidIdentifier [.emptyIdentifier])
      | tok :: remaining =>
        match parseLocation opts tok with
        | .error e => .error e
        | .ok id0 =>
          if remaining ≠ [] then
            .error (goWrap .invalidIdentifier [.otherMsg "unexpected token"])
          else .ok { id0 with typ := contextType }

/-- Tokenizes a Go string as strings.Fields does. -/
def fieldsOf (s : String) : List String := (fieldsGo s.data).map (fun cs => (⟨cs⟩ : String))

/-- Models reference.ParseIdentifier: tokenize, parse, and wrap any parse
error in ErrInvalidIdentifier. -/
def ParseIdentifier (s : String) (contextType : String) (opts : Option IdentifierOptions) :
    Except GoErr Identifier :=
  match identParse contextType opts (fieldsOf s) with
  | .error e => .error (goWrap .invalidIdentifier e)
  | .ok id => .ok id

/-- A reference as far as the claims need it: the parsed identifier and the
tokens left for the version-constraint / channel / digest phase. -/
structure Reference where
  ident : Identifier
  tail : List String
deriving DecidableEq, Repr

/-- Modelled from the spec: referenceParser.parse, the body of
reference.Parse, is not among the provided sources (only the entry point
and its documentation are).  Spec section 4.4: the reference grammar runs
the identifier phase first — the same context-type gate, optional type
token and location token — and then consumes the version constraint or
channel and an optional digest from the remaining tokens.  Those remaining
tokens are carried verbatim, since no claim here depends on that phase;
one is required, as a reference needs a version or channel. -/
def referenceParse (contextType : String) (opts : Option IdentifierOptions)
    (tokens : List String) : Except GoErr Reference :=
  if !(typeMatches contextType.data) then
    .error (goWrap .invalidIdentifier [.invalidContextType])
  else if tokens = [] then .error (goWrap .invalidIdentifier [.emptyIdentifier])
  else
    match parseTypeStep contextType tokens with
    | .error e => .error e
    | .ok rest =>
      match rest with
      | [] => .error (goWrap .invalidIdentifier [.emptyIdentifier])
      | tok :: remaining =>
        match parseLocation opts tok with
        | .error e => .error e
        | .ok id0 =>
          if remaining = [] then
            .error (goWrap .invalidReference [.otherMsg "missing version or channel"])
          else .ok ⟨{ id0 with typ := contextType }, remaining⟩

/-- Models reference.Parse: tokenize, run the reference parser, and wrap
any error in ErrInvalidReference. -/
def Parse (s : String) (contextType : String) (opts : Option IdentifierOptions) :
    Except GoErr Reference :=
  match referenceParse contextType opts (fieldsOf s) with
  | .error e => .error (goWrap .invalidReference e)
  | .ok r => .ok r

/-! ## Helper lemmas -/

/-- The error code of a facade result, if any. -/
def resultCode {α : Type} : Except RegError α → Option ErrorCode
  | .error e => some e.code
  | .ok _ => none

theorem leadsList_append (l m : List Char) : leadsList l (l ++ m) = true := by
  induction l with
  | nil => rfl
  | cons c cs ih => simp [leadsList, ih]

theorem find?_map_if {α : Type} (p : α → Bool) (upd : α → α)
    (hpk : ∀ a, p (upd a) = p a) (l : List α) :
    (l.map (fun a => if p a then upd a else a)).find? p = (l.find? p).map upd := by
  induction l with
  | nil => rfl
  | cons hd tl ih =>
    by_cases h : p hd = true
    · simp [List.find?_cons, h, hpk hd]
    · have h' : p hd = false := by simpa using h
      simp [List.find?_cons, h', hpk hd, ih]

theorem filter_length_ne_zero_of_find? {α : Type} (p : α → Bool) (l : List α) (a : α)
    (h : l.find? p = some a) : (l.filter p).length ≠ 0 := by
  have hp := List.find?_some h
  have hm := List.mem_of_find?_eq_some h
  have : a ∈ l.filter p := List.mem_filter.mpr ⟨hm, hp⟩
  intro hlen
  rw [List.length_eq_zero] at hlen
  rw [hlen] at this
  exact List.not_mem_nil a this

theorem filter_length_zero_of_find?_none {α : Type} (p : α → Bool) (l : List α)
    (h : l.find? p = none) : (l.filter p).length = 0 := by
  rw [List.find?_eq_none] at h
  rw [List.length_eq_zero, List.filter_eq_nil_iff]
  intro a ha
  simpa using h a ha

theorem validateName_ok_ne_empty {s : String} (h : validateName s = .ok ()) : s ≠ "" := by
  intro he
  subst he
  simp [validateName] at h

theorem validateReference_ok {ns res ver : String}
    (h : validateReference ns res ver = .ok ()) :
    validateName ns = .ok () ∧ validateName res = .ok () ∧
      validateVersionString ver = .ok () := by
  unfold validateReference at h
  cases h1 : validateName ns with
  | error e => rw [h1] at h; simp [Bind.bind, Except.bind] at h
  | ok u =>
    cases u
    rw [h1] at h
    simp only [Bind.bind, Except.bind] at h
    cases h2 : validateName res with
    | error e => rw [h2] at h; simp at h
    | ok u =>
      cases u
      rw [h2] at h
      simp at h
      exact ⟨rfl, rfl, h⟩

/-! ## Claim C10: the context-type gate of the identifier parser -/

/-- Claim C10: for every input string and every options value, ParseIdentifier
(and the reference-level Parse) fails with an invalid-identifier error
whenever the context type is not a non-empty string of lowercase ASCII
letters, regardless of the identifier string itself. -/
theorem parse_identifier_context_type_gate
    (s : String) (ct : String) (opts : Option IdentifierOptions)
    (hct : typeMatches ct.data = false) :
    ParseIdentifier s ct opts =
      .error [.invalidIdentifier, .invalidIdentifier, .invalidContextType] ∧
    goErrIs [ErrTag.invalidIdentifier, .invalidIdentifier, .invalidContextType]
      .invalidIdentifier ∧
    Parse s ct opts = .error [.invalidReference, .invalidIdentifier, .invalidContextType] ∧
    goErrIs [ErrTag.invalidReference, .invalidIdentifier, .invalidContextType]
      .invalidIdentifier := by
  refine ⟨?_, by decide, ?_, by decide⟩
  · simp [ParseIdentifier, identParse, hct, goWrap]
  · simp [Parse, referenceParse, hct, goWrap]

/-- Witness for C10: the uppercase context type "Widget" is rejected even on
a well-formed identifier string, which the lowercase context type accepts. -/
theorem parse_identifier_context_type_gate_witness :
    typeMatches ("Widget" : String).data = false ∧
    ParseIdentifier "myorg/mywidget" "Widget" none =
      .error [.invalidIdentifier, .invalidIdentifier, .invalidContextType] ∧
    Parse "myorg/mywidget 1.0.0" "Widget" none =
      .error [.invalidReference, .invalidIdentifier, .invalidContextType] ∧
    ParseIdentifier "myorg/mywidget" "widget" none =
      .ok ⟨"widget", "https", "registry.crucible.net", "myorg", "mywidget", ""⟩ :=
  ⟨by decide,
   (parse_identifier_context_type_gate "myorg/mywidget" "Widget" none (by decide)).1,
   (parse_identifier_context_type_gate "myorg/mywidget 1.0.0" "Widget" none (by decide)).2.2.1,
   by decide⟩

/-! ## Claim C8: the name-validation gate of the facade -/

theorem one_le_length_iff (s : String) : 1 ≤ s.length ↔ s ≠ "" := by
  rw [Ne, String.ext_iff]
  cases s with
  | mk d =>
    cases d with
    | nil => simp [String.length]
    | cons c cs => simp [String.length]

/-- Claim C8: validateName accepts exactly the names of length 1 to 63 that
match the name pattern, and facade operations reject an invalid name with
bad_request before any database access: shown as an exact characterisation
for the name-only operations DeleteNamespace and ReadChannel, and as the
short-circuit direction for UploadArchive (whose version argument is a
further source of bad_request). -/
theorem name_validation_gate
    (s ns resource channel : String) (db : RegistryDB) (fs : List String)
    (now : Int) (root version : String) (b : List Nat) (fault : Option String) :
    (validateName s = .ok () ↔
      (1 ≤ s.length ∧ s.length ≤ 63 ∧ nameRegexMatches s.data = true)) ∧
    ((resultCode (DeleteNamespace db ns).result = some .badRequest ∧
        (DeleteNamespace db ns).dbAccess = false) ↔
      validateName ns ≠ .ok ()) ∧
    ((resultCode (ReadChannel db ns resource channel).result = some .badRequest ∧
        (ReadChannel db ns resource channel).dbAccess = false) ↔
      (validateName ns ≠ .ok () ∨ validateName resource ≠ .ok () ∨
        validateName channel ≠ .ok ())) ∧
    ((validateName ns ≠ .ok () ∨ validateName resource ≠ .ok ()) →
      (resultCode (UploadArchive now root db fs ns resource version b fault).result =
          some .badRequest ∧
        (UploadArchive now root db fs ns resource version b fault).fs = fs ∧
        (UploadArchive now root db fs ns resource version b fault).db = db ∧
        (UploadArchive now root db fs ns resource version b fault).dbAccess = false)) := by
  refine ⟨?_, ?_, ?_, ?_⟩
  · have hlen := one_le_length_iff s
    constructor
    · intro h
      unfold validateName at h
      by_cases h0 : s = ""
      · rw [if_pos h0] at h; simp at h
      · rw [if_neg h0] at h
        by_cases h1 : s.length > 63
        · rw [if_pos h1] at h; simp at h
        · rw [if_neg h1] at h
          by_cases h2 : nameRegexMatches s.data = true
          · exact ⟨hlen.mpr h0, by omega, h2⟩
          · have h2' : (!nameRegexMatches s.data) = true := by
              cases hnr : nameRegexMatches s.data
              · rfl
              · exact absurd hnr h2
            rw [if_pos h2'] at h; simp at h
    · rintro ⟨h1, h2, h3⟩
      have h0 : s ≠ "" := hlen.mp h1
      unfold validateName
      rw [if_neg h0, if_neg (by omega), if_neg (by simp [h3])]
  · cases hv : validateName ns with
    | error m => simp [DeleteNamespace, validateNamespace, hv, resultCode]
    | ok u =>
      cases u
      simp only [DeleteNamespace, validateNamespace, hv]
      cases hd : deleteNamespace db ns with
      | error e => simp [resultCode]
      | ok db' => simp [resultCode]
  · cases hv1 : validateName ns with
    | error m => simp [ReadChannel, validateChannelReference, hv1, Bind.bind, Except.bind, resultCode]
    | ok u =>
      cases u
      cases hv2 : validateName resource with
      | error m =>
        simp [ReadChannel, validateChannelReference, hv1, hv2, Bind.bind, Except.bind, resultCode]
      | ok u =>
        cases u
        cases hv3 : validateName channel with
        | error m =>
          simp [ReadChannel, validateChannelReference, hv1, hv2, hv3, Bind.bind, Except.bind,
            resultCode]
        | ok u =>
          cases u
          simp only [ReadChannel, validateChannelReference, hv1, hv2, hv3, Bind.bind, Except.bind]
          cases hg : getChannel db ns resource channel with
          | error e => cases e <;> simp [resultCode, hv1, hv2, hv3]
          | ok c => simp [resultCode, hv1, hv2, hv3]
  · intro hbad
    have hvr : ∀ u, validateReference ns resource version ≠ .ok u := by
      intro u h
      rcases validateReference_ok (by cases u; exact h) with ⟨ha, hb, _⟩
      rcases hbad with h | h
      · exact h ha
      · exact h hb
    cases hv : validateReference ns resource version with
    | error m => simp [UploadArchive, hv, resultCode]
    | ok u => exact absurd hv (hvr u)

/-- Witness for C8: the malformed name "Invalid-Name" is rejected with
bad_request and no database access, while the well-formed "myorg" passes
validation. -/
theorem name_validation_gate_witness :
    (resultCode (DeleteNamespace emptyDB "Invalid-Name").result = some .badRequest ∧
      (DeleteNamespace emptyDB "Invalid-Name").dbAccess = false) ∧
    validateName "myorg" = .ok () :=
  ⟨(name_validation_gate "myorg" "Invalid-Name" "mywidget" "stable" emptyDB [] 0 "root"
      "1.0.0" [] none).2.1.mpr (by decide),
   by decide⟩

/-! ## Claim C3: missing targets -/

/-- Claim C3 counterexample: the delete operations called with valid names on
targets that do not exist return success, not a not_found error — the
DELETE statements never inspect their affected row count. -/
theorem delete_missing_returns_success :
    (DeleteNamespace emptyDB "myorg").result = .ok () ∧
    (DeleteResource emptyDB "myorg" "mywidget").result = .ok () ∧
    (DeleteVersion emptyDB "myorg" "mywidget" "1.0.0").result = .ok () ∧
    (DeleteChannel emptyDB "myorg" "mywidget" "stable").result = .ok () ∧
    resultCode (DeleteNamespace emptyDB "myorg").result ≠ some .notFound := by decide

/-- Claim C3 (amended): non-list read and update operations on a missing
target return not_found, but the delete operations (DeleteNamespace,
DeleteResource, DeleteVersion, DeleteChannel) with valid names on a missing
target return success. -/
theorem missing_target_outcomes
    (db : RegistryDB) (now : Int) (ns resource version channel : String)
    (info : NamespaceInfo) (cinfo : ChannelInfo) :
    (validateName ns = .ok () → sqlNamespacesGet db ns = none →
      (ReadNamespace db ns).result = .error ⟨.notFound, "namespace not found"⟩) ∧
    (validateName ns = .ok () → sqlNamespacesGet db ns = none →
      (UpdateNamespace now db ns info).result = .error ⟨.notFound, "namespace not found"⟩) ∧
    (validateChannelReference ns resource channel = .ok () →
      db.channels.find? (chMatch ns resource channel) = none →
      (ReadChannel db ns resource channel).result = .error ⟨.notFound, "channel not found"⟩) ∧
    (validateChannelInfo ns resource cinfo = .ok () →
      db.channels.find? (chMatch ns resource cinfo.name) = none →
      (UpdateChannel now db ns resource channel cinfo).result =
        .error ⟨.notFound, "channel not found"⟩) ∧
    (validateName ns = .ok () → sqlNamespacesGet db ns = none →
      (DeleteNamespace db ns).result = .ok ()) ∧
    (validateIdentifier ns resource = .ok () → sqlResourcesGet db ns resource = none →
      (DeleteResource db ns resource).result = .ok ()) ∧
    (validateReference ns resource version = .ok () →
      sqlVersionsGet db ns resource version = none →
      (DeleteVersion db ns resource version).result = .ok ()) ∧
    (validateChannelReference ns resource channel = .ok () →
      (DeleteChannel db ns resource channel).result = .ok ()) := by
  refine ⟨?_, ?_, ?_, ?_, ?_, ?_, ?_, ?_⟩
  · intro hval hmiss
    simp [ReadNamespace, validateNamespace, hval, getNamespace, hmiss]
  · intro hval hmiss
    have hz := filter_length_zero_of_find?_none (nsMatch ns) db.namespaces hmiss
    simp [UpdateNamespace, validateNamespace, hval, updateNamespace, sqlNamespacesUpdate, hz]
  · intro hval hmiss
    simp [ReadChannel, hval, getChannel, hmiss]
  · intro hval hmiss
    have hz := filter_length_zero_of_find?_none (chMatch ns resource cinfo.name)
      db.channels hmiss
    simp [UpdateChannel, hval, updateChannel, sqlChannelsUpdate, hz]
  · intro hval hmiss
    have h1 := List.find?_eq_none.mp hmiss
    have hany : (db.namespaces.any (fun r =>
        nsMatch ns r && db.resources.any (fun s => s.ns == r.name))) = false := by
      rw [List.any_eq_false]
      intro r hr
      have := h1 r hr
      simp at this
      simp [this]
    simp [DeleteNamespace, validateNamespace, hval, deleteNamespace, sqlNamespacesDelete, hany]
  · intro hval hmiss
    have h1 := List.find?_eq_none.mp hmiss
    have hany : (db.resources.any (fun r => resMatch ns resource r &&
        (db.versions.any (fun v => v.ns == r.ns && v.resource == r.name) ||
         db.channels.any (fun c => c.ns == r.ns && c.resource == r.name)))) = false := by
      rw [List.any_eq_false]
      intro r hr
      have := h1 r hr
      simp at this
      simp [this]
    simp [DeleteResource, hval, deleteResource, sqlResourcesDelete, hany]
  · intro hval hmiss
    have h1 := List.find?_eq_none.mp hmiss
    have hany : (db.versions.any (fun v => verMatch ns resource version v &&
        db.channels.any (fun c =>
          c.ns == v.ns && c.resource == v.resource && c.version == v.string))) = false := by
      rw [List.any_eq_false]
      intro v hv
      have := h1 v hv
      simp at this
      simp [this]
    simp [DeleteVersion, hval, deleteVersion, sqlVersionsDelete, hany]
  · intro hval
    simp [DeleteChannel, hval, deleteChannel]

/-- Witness for C3 (amended): on the empty database, the read misses with
not_found while the deletes succeed. -/
theorem missing_target_outcomes_witness :
    (ReadNamespace emptyDB "myorg").result = .error ⟨.notFound, "namespace not found"⟩ ∧
    (UpdateChannel 0 emptyDB "myorg" "mywidget" "stable" ⟨"stable", "1.0.0", ""⟩).result =
      .error ⟨.notFound, "channel not found"⟩ ∧
    (DeleteNamespace emptyDB "myorg").result = .ok () ∧
    (DeleteVersion emptyDB "myorg" "mywidget" "1.0.0").result = .ok () := by
  have h := missing_target_outcomes emptyDB 0 "myorg" "mywidget" "1.0.0" "stable"
    ⟨"myorg", ""⟩ ⟨"stable", "1.0.0", ""⟩
  exact ⟨h.1 (by decide) (by decide),
         h.2.2.2.1 (by decide) (by decide),
         h.2.2.2.2.1 (by decide) (by decide),
         h.2.2.2.2.2.2.1 (by decide) (by decide)⟩

/-! ## Claim C9: namespace list summaries -/

/-- Claim C9 counterexample: the namespace list query selects neither
updated_at nor does the scan fill it — a namespace last updated at 7 is
listed with updatedAt 0. -/
theorem list_namespaces_updated_at_dropped :
    (ListNamespaces ⟨[⟨"myorg", "d", 3, 7⟩], [], [], []⟩).result =
      .ok [⟨"myorg", "d", 0, 3, 0⟩] ∧
    (⟨[⟨"myorg", "d", 3, 7⟩], [], [], []⟩ : RegistryDB).namespaces.map
      (fun r => r.updatedAt) = [7] ∧
    ((0 : Int) ≠ 7) := by decide

/-- Claim C9 (amended): for every stored namespace, ListNamespaces returns a
summary carrying the row's name, description, resource count and createdAt;
the updatedAt field is not part of the list query and is returned as the
zero value. -/
theorem list_namespaces_summary_fields
    (db : RegistryDB) (r : NamespaceRow) (hr : r ∈ db.namespaces) :
    (ListNamespaces db).result = .ok (listNamespaces db) ∧
    (⟨r.name, r.description, (db.resources.filter (fun s => s.ns == r.name)).length,
       r.createdAt, 0⟩ : NamespaceSummary) ∈ listNamespaces db := by
  exact ⟨rfl, List.mem_map_of_mem _ hr⟩

/-- Witness for C9 (amended): the single stored namespace appears with its
name, description, count and createdAt, and a zeroed updatedAt. -/
theorem list_namespaces_summary_fields_witness :
    (ListNamespaces ⟨[⟨"ns1", "d", 3, 7⟩], [], [], []⟩).result =
      .ok (listNamespaces ⟨[⟨"ns1", "d", 3, 7⟩], [], [], []⟩) ∧
    (⟨"ns1", "d", 0, 3, 0⟩ : NamespaceSummary) ∈
      listNamespaces ⟨[⟨"ns1", "d", 3, 7⟩], [], [], []⟩ := by
  have h := list_namespaces_summary_fields ⟨[⟨"ns1", "d", 3, 7⟩], [], [], []⟩
    ⟨"ns1", "d", 3, 7⟩ (by decide)
  exact ⟨h.1, h.2⟩

/-! ## Claim C6: timestamps -/

/-- Claim C6 counterexample: a namespace created at clock 5 and successfully
updated while the clock still reads 5 keeps updated_at = 5 — the successful
mutation does not strictly increase it. -/
theorem updated_at_not_strictly_increased :
    (CreateNamespace 5 emptyDB ⟨"myorg", "a"⟩).db =
      (⟨[⟨"myorg", "a", 5, 5⟩], [], [], []⟩ : RegistryDB) ∧
    (UpdateNamespace 5 (⟨[⟨"myorg", "a", 5, 5⟩], [], [], []⟩ : RegistryDB) "myorg"
        ⟨"myorg", "b"⟩).result.map (fun n => (n.createdAt, n.updatedAt)) = .ok (5, 5) ∧
    ¬((5 : Int) > 5) := by decide

/-- Claim C6 (amended): creation sets created_at = updated_at to the clock,
and every successful mutation (namespace update, archive-metadata upload,
channel update) sets the row's updated_at to the clock at the mutation and
preserves created_at — so updated_at strictly increases exactly when the
clock strictly advanced between the writes, and created_at ≤ updated_at
holds whenever the clock never runs backwards. -/
theorem mutation_timestamps
    (now : Int) (db : RegistryDB) (ns : String) (info : NamespaceInfo) (r : NamespaceRow)
    (nsv resv verv digest path : String) (size : Int) (vrow : VersionRow)
    (nsc resc : String) (cinfo : ChannelInfo) (crow : ChannelRow) :
    (∀ obj, (CreateNamespace now db info).result = .ok obj →
      obj.createdAt = now ∧ obj.updatedAt = now) ∧
    (validateName ns = .ok () → sqlNamespacesGet db ns = some r →
      (UpdateNamespace now db ns info).result.map (fun o => (o.createdAt, o.updatedAt)) =
        .ok (r.createdAt, now)) ∧
    (sqlVersionsGet db nsv resv verv = some vrow →
      (sqlVersionsUpload db digest size path now nsv resv verv).1.versions.find?
          (verMatch nsv resv verv) =
        some ({ vrow with
          digest := some digest, size := some size, path := some path,
          updatedAt := now })) ∧
    (db.channels.find? (chMatch nsc resc cinfo.name) = some crow →
      db.versions.any (verMatch nsc resc cinfo.version) = true →
      (sqlChannelsUpdate db cinfo.description cinfo.version now nsc resc cinfo.name).map
          (fun p => p.1.channels.find? (chMatch nsc resc cinfo.name)) =
        .ok (some ({ crow with
          description := cinfo.description, version := cinfo.version,
          updatedAt := now }))) := by
  refine ⟨?_, ?_, ?_, ?_⟩
  · intro obj hobj
    unfold CreateNamespace at hobj
    cases hv : validateNamespace info.name with
    | error m => rw [hv] at hobj; simp at hobj
    | ok u =>
      cases u
      rw [hv] at hobj
      cases hs : sqlNamespacesInsert db info.name info.description now now with
      | error e =>
        simp only [insertNamespace, hs] at hobj
        cases hg : getNamespace db info.name with
        | error e2 => rw [hg] at hobj; simp at hobj
        | ok o => rw [hg] at hobj; simp at hobj
      | ok db' =>
        simp only [insertNamespace, hs] at hobj
        simp at hobj
        rw [← hobj]
        exact ⟨rfl, rfl⟩
  · intro hval hrow
    have hrow' : db.namespaces.find? (nsMatch ns) = some r := hrow
    have hnz := filter_length_ne_zero_of_find? (nsMatch ns) db.namespaces r hrow'
    have hfind := find?_map_if (nsMatch ns)
      (fun x => ({ x with description := info.description, updatedAt := now }))
      (fun a => rfl) db.namespaces
    simp [UpdateNamespace, validateNamespace, hval, updateNamespace, sqlNamespacesUpdate,
      hnz, getNamespace, sqlNamespacesGet, hfind, hrow', Except.map]
  · intro hrow
    have hrow' : db.versions.find? (verMatch nsv resv verv) = some vrow := hrow
    have hfind := find?_map_if (verMatch nsv resv verv)
      (fun x => ({ x with
        digest := some digest, size := some size, path := some path, updatedAt := now }))
      (fun a => rfl) db.versions
    simp [sqlVersionsUpload, hfind, hrow']
  · intro hrow hfk
    have hfind := find?_map_if (chMatch nsc resc cinfo.name)
      (fun x => ({ x with
        description := cinfo.description, version := cinfo.version, updatedAt := now }))
      (fun a => rfl) db.channels
    simp [sqlChannelsUpdate, hfk, hfind, hrow, Except.map]

/-- Witness for C6 (amended): updating the (5,5) namespace at clock 6 yields
createdAt 5 and updatedAt 6. -/
theorem mutation_timestamps_witness :
    (UpdateNamespace 6 (⟨[⟨"myorg", "a", 5, 5⟩], [], [], []⟩ : RegistryDB) "myorg"
        ⟨"myorg", "b"⟩).result.map (fun o => (o.createdAt, o.updatedAt)) = .ok (5, 6) := by
  have h := mutation_timestamps 6 (⟨[⟨"myorg", "a", 5, 5⟩], [], [], []⟩ : RegistryDB)
    "myorg" ⟨"myorg", "b"⟩ ⟨"myorg", "a", 5, 5⟩ "" "" "" "" "" 0
    ⟨"", "", "", none, none, none, 0, 0⟩ "" "" ⟨"", "", ""⟩ ⟨"", "", "", "", "", 0, 0⟩
  exact h.2.1 (by decide) (by decide)

/-! ## Claim C4: channel responses and the embedded version -/

/-- A database with an uploaded archive on version 1.0.0 and a channel
pointing at it. -/
def channelDB : RegistryDB :=
  ⟨[⟨"myorg", "", 0, 0⟩], [⟨"myorg", "mywidget", "widget", "", 0, 0⟩],
   [⟨"myorg", "mywidget", "1.0.0", some "sha256:abc", some 5,
     some "root/myorg/mywidget/1.0.0/sha256:abc.tar.zst", 1, 2⟩],
   [⟨"myorg", "mywidget", "stable", "", "1.0.0", 3, 4⟩]⟩

/-- Claim C4: the stored version row carries digest, size and path, yet the
channel responses of ReadChannel, UpdateChannel and CreateChannel embed a
Version whose Size and Archive are nil — getChannel scans the joined size
and path columns but copies only the digest, contradicting its own
documentation and the spec. -/
theorem channel_version_archive_fields_dropped :
    (sqlVersionsGet channelDB "myorg" "mywidget" "1.0.0").map
        (fun r => (r.digest, r.size, r.path)) =
      some (some "sha256:abc", some 5,
            some "root/myorg/mywidget/1.0.0/sha256:abc.tar.zst") ∧
    (ReadChannel channelDB "myorg" "mywidget" "stable").result.map
        (fun c => (c.version.digest, c.version.size, c.version.archive)) =
      .ok (some "sha256:abc", none, none) ∧
    (UpdateChannel 9 channelDB "myorg" "mywidget" "stable"
        ⟨"stable", "1.0.0", "d"⟩).result.map
        (fun c => (c.version.size, c.version.archive)) = .ok (none, none) ∧
    (CreateChannel 9 channelDB "myorg" "mywidget" ⟨"beta", "1.0.0", ""⟩).result.map
        (fun c => (c.version.size, c.version.archive)) = .ok (none, none) := by decide

/-! ## Claim C5: blob rollback on metadata failure -/

theorem not_mem_removeFsPath (fs : List String) (p : String) : p ∉ removeFsPath fs p := by
  intro h
  rw [removeFsPath, List.mem_filter] at h
  simp at h

/-- Claim C5: when the archive-metadata update of UploadArchive fails, the
freshly written blob is gone from the filesystem when the call returns and
the database is unchanged; a missing version row (sql.ErrNoRows) yields
not_found, any other database failure yields internal_error. -/
theorem upload_archive_rollback
    (now : Int) (root : String) (db : RegistryDB) (fs : List String)
    (ns resource version : String) (b : List Nat) (fault : Option String)
    (hval : validateReference ns resource version = .ok ())
    (hfail : fault ≠ none ∨ sqlVersionsGet db ns resource version = none) :
    archiveFinalPath root ns resource version ("sha256:" ++ hexString (sha256 b)) ∉
      (UploadArchive now root db fs ns resource version b fault).fs ∧
    (UploadArchive now root db fs ns resource version b fault).db = db ∧
    (fault = none →
      (UploadArchive now root db fs ns resource version b fault).result =
        .error ⟨.notFound, "version not found"⟩) ∧
    (∀ m, fault = some m →
      (UploadArchive now root db fs ns resource version b fault).result =
        .error ⟨.internalError, "unable to update archive metadata"⟩) := by
  cases fault with
  | some m =>
    have hout : UploadArchive now root db fs ns resource version b (some m) =
        ⟨.error ⟨.internalError, "unable to update archive metadata"⟩, db,
         removeFsPath (insertFsPath fs (archiveFinalPath root ns resource version
             ("sha256:" ++ hexString (sha256 b))))
           (archiveFinalPath root ns resource version ("sha256:" ++ hexString (sha256 b))),
         true⟩ := by
      simp [UploadArchive, hval, storeArchiveFile, uploadArchive]
    rw [hout]
    exact ⟨not_mem_removeFsPath _ _, rfl, fun h => Option.noConfusion h, fun m' _ => rfl⟩
  | none =>
    have hmiss : sqlVersionsGet db ns resource version = none := by
      rcases hfail with h | h
      · exact absurd rfl h
      · exact h
    have hz := filter_length_zero_of_find?_none (verMatch ns resource version)
      db.versions hmiss
    have hout : UploadArchive now root db fs ns resource version b none =
        ⟨.error ⟨.notFound, "version not found"⟩, db,
         removeFsPath (insertFsPath fs (archiveFinalPath root ns resource version
             ("sha256:" ++ hexString (sha256 b))))
           (archiveFinalPath root ns resource version ("sha256:" ++ hexString (sha256 b))),
         true⟩ := by
      simp [UploadArchive, hval, storeArchiveFile, uploadArchive, sqlVersionsUpload, hz]
    rw [hout]
    exact ⟨not_mem_removeFsPath _ _, rfl, fun _ => rfl, fun m hm => Option.noConfusion hm⟩

/-- Witness for C5: uploading to a version that does not exist rolls the
blob back and reports not_found. -/
theorem upload_archive_rollback_witness :
    archiveFinalPath "root" "myorg" "mywidget" "1.0.0"
        ("sha256:" ++ hexString (sha256 [1, 2])) ∉
      (UploadArchive 7 "root" emptyDB [] "myorg" "mywidget" "1.0.0" [1, 2] none).fs ∧
    (UploadArchive 7 "root" emptyDB [] "myorg" "mywidget" "1.0.0" [1, 2] none).result =
      .error ⟨.notFound, "version not found"⟩ := by
  have h := upload_archive_rollback 7 "root" emptyDB [] "myorg" "mywidget" "1.0.0" [1, 2]
    none (by decide) (Or.inr (by decide))
  exact ⟨h.1, h.2.2.1 rfl⟩

/-! ## Claim C7: archive creation and unsupported file types -/

theorem writeTar_unsupported (walk : List WalkEntry)
    (hbad : ∃ e ∈ walk, e.typ = .symlink ∨ e.typ = .special) :
    writeTar walk = .error [.unsupportedFileType] := by
  induction walk with
  | nil => rcases hbad with ⟨e, he, _⟩; cases he
  | cons hd tl ih =>
    cases hty : hd.typ with
    | symlink => simp [writeTar, writeEntry, hty]
    | special => simp [writeTar, writeEntry, hty]
    | dir =>
      have htl : ∃ e ∈ tl, e.typ = .symlink ∨ e.typ = .special := by
        rcases hbad with ⟨e, he, hb⟩
        rcases List.mem_cons.mp he with rfl | hmem
        · rw [hty] at hb; rcases hb with h | h <;> cases h
        · exact ⟨e, hmem, hb⟩
      simp [writeTar, writeEntry, hty, ih htl]
    | regular =>
      have htl : ∃ e ∈ tl, e.typ = .symlink ∨ e.typ = .special := by
        rcases hbad with ⟨e, he, hb⟩
        rcases List.mem_cons.mp he with rfl | hmem
        · rw [hty] at hb; rcases hb with h | h <;> cases h
        · exact ⟨e, hmem, hb⟩
      simp [writeTar, writeEntry, hty, ih htl]

/-- Claim C7: when the walk behind Create meets a symlink, device, socket or
pipe, Create reports an error chain carrying ErrUnsupportedFileType and the
partially written archive at dest is removed. -/
theorem create_unsupported_rollback (walk : List WalkEntry) (dest : String)
    (fs : List String) (hbad : ∃ e ∈ walk, e.typ = .symlink ∨ e.typ = .special) :
    (Create walk dest fs).1 = some [.createFailed, .unsupportedFileType] ∧
    goErrIs [ErrTag.createFailed, .unsupportedFileType] .unsupportedFileType ∧
    dest ∉ (Create walk dest fs).2 := by
  have hw := writeTar_unsupported walk hbad
  refine ⟨by simp [Create, hw, goWrap], by decide, ?_⟩
  simp only [Create, hw]
  exact not_mem_removeFsPath _ _

/-- Witness for C7: archiving a tree containing one symlink fails with
unsupported_file_type and leaves no file at the destination. -/
theorem create_unsupported_rollback_witness :
    (Create [⟨"a", .symlink⟩] "out.tar.zst" []).1 =
      some [.createFailed, .unsupportedFileType] ∧
    "out.tar.zst" ∉ (Create [⟨"a", .symlink⟩] "out.tar.zst" []).2 := by
  have h := create_unsupported_rollback [⟨"a", .symlink⟩] "out.tar.zst" []
    ⟨⟨"a", .symlink⟩, by decide, Or.inl rfl⟩
  exact ⟨h.1, h.2.2⟩

/-! ## Claim C1: digest, size and path of a successful upload -/

theorem string_append_data (x y : String) : (x ++ y).data = x.data ++ y.data := by
  cases x; cases y; rfl

theorem string_append_assoc (x y z : String) : x ++ y ++ z = x ++ (y ++ z)  := by
  rw [String.ext_iff]
  simp [string_append_data, List.append_assoc]

theorem append_ne_empty_left (x y : String) (hx : x ≠ "") : x ++ y ≠ "" := by
  intro h
  apply hx
  rw [String.ext_iff] at h ⊢
  rw [string_append_data] at h
  exact (List.append_eq_nil.mp h).1

theorem version_string_ok_ne_empty {v : String} (h : validateVersionString v = .ok ()) :
    v ≠ "" := by
  intro he
  subst he
  have hs : semverValid "" = false := by decide
  simp [validateVersionString, hs] at h

theorem joinPath_eq (l : List String) (h : ∀ x ∈ l, x ≠ "") :
    joinPath l = String.intercalate "/" l := by
  unfold joinPath
  congr 1
  exact List.filter_eq_self.mpr (fun x hx => by simpa using h x hx)

theorem archiveFinalPath_eq (root ns resource version digest : String)
    (hroot : root ≠ "") (hns : ns ≠ "") (hres : resource ≠ "") (hver : version ≠ "")
    (hdig : digest ≠ "") :
    archiveFinalPath root ns resource version digest =
      root ++ "/" ++ ns ++ "/" ++ resource ++ "/" ++ version ++ "/" ++ digest ++
        ArchiveFileExtension := by
  have hdir : archiveDirectoryPath root ns resource version =
      root ++ "/" ++ ns ++ "/" ++ resource ++ "/" ++ version := by
    unfold archiveDirectoryPath
    rw [joinPath_eq]
    · rfl
    · intro x hx
      simp only [List.mem_cons, List.not_mem_nil, or_false] at hx
      rcases hx with rfl | rfl | rfl | rfl <;> assumption
  have hdirne : archiveDirectoryPath root ns resource version ≠ "" := by
    rw [hdir]
    exact append_ne_empty_left _ _ (append_ne_empty_left _ _ (append_ne_empty_left _ _
      (append_ne_empty_left _ _ (append_ne_empty_left _ _ (append_ne_empty_left _ _ hroot)))))
  have hde : digest ++ ArchiveFileExtension ≠ "" := append_ne_empty_left _ _ hdig
  unfold archiveFinalPath
  rw [joinPath_eq]
  · show archiveDirectoryPath root ns resource version ++ "/" ++
      (digest ++ ArchiveFileExtension) = _
    rw [hdir, ← string_append_assoc]
  · intro x hx
    simp only [List.mem_cons, List.not_mem_nil, or_false] at hx
    rcases hx with rfl | rfl
    · exact hdirne
    · exact hde

/-- Claim C1: a successful UploadArchive over the byte stream b returns a
version whose digest is "sha256:" plus the lowercase hex SHA-256 of b,
whose size is the byte count of b, and whose archive path is
archiveRoot/namespace/resource/version/digest.tar.zst. -/
theorem upload_archive_digest_size_path
    (now : Int) (root : String) (db : RegistryDB) (fs : List String)
    (ns resource version : String) (b : List Nat) (r : VersionRow)
    (hval : validateReference ns resource version = .ok ())
    (hrow : sqlVersionsGet db ns resource version = some r)
    (hroot : root ≠ "") :
    (UploadArchive now root db fs ns resource version b none).result.map
        (fun v => (v.digest, v.size, v.archive)) =
      .ok (some ("sha256:" ++ hexString (sha256 b)), some (b.length : Int),
           some (root ++ "/" ++ ns ++ "/" ++ resource ++ "/" ++ version ++ "/" ++
             ("sha256:" ++ hexString (sha256 b)) ++ ArchiveFileExtension)) := by
  obtain ⟨hns, hres, hver⟩ := validateReference_ok hval
  have hns' := validateName_ok_ne_empty hns
  have hres' := validateName_ok_ne_empty hres
  have hver' := version_string_ok_ne_empty hver
  have hdig : ("sha256:" ++ hexString (sha256 b)) ≠ "" :=
    append_ne_empty_left _ _ (by decide)
  have hpath := archiveFinalPath_eq root ns resource version
    ("sha256:" ++ hexString (sha256 b)) hroot hns' hres' hver' hdig
  have hrow' : db.versions.find? (verMatch ns resource version) = some r := hrow
  have hnz := filter_length_ne_zero_of_find? (verMatch ns resource version)
    db.versions r hrow'
  have hfind := find?_map_if (verMatch ns resource version)
    (fun x => ({ x with
      digest := some ("sha256:" ++ hexString (sha256 b)),
      size := some (b.length : Int),
      path := some (archiveFinalPath root ns resource version
        ("sha256:" ++ hexString (sha256 b))),
      updatedAt := now }))
    (fun a => rfl) db.versions
  simp only [hpath] at hfind
  simp [UploadArchive, hval, storeArchiveFile, uploadArchive, sqlVersionsUpload, hnz,
    getVersion, sqlVersionsGet, hfind, hrow', hpath, Except.map, -List.find?_map]

/-- Database holding the not-yet-uploaded version 1.0.0 of myorg/mywidget. -/
def helloDB : RegistryDB :=
  ⟨[⟨"myorg", "", 1, 1⟩], [⟨"myorg", "mywidget", "widget", "", 1, 1⟩],
   [⟨"myorg", "mywidget", "1.0.0", none, none, none, 1, 1⟩], []⟩

set_option maxRecDepth 1000000 in
/-- Witness for C1: uploading the bytes of "hello" yields size 5, the
archive path under root/myorg/mywidget/1.0.0, and the digest of the spec's
happy-path scenario. -/
theorem upload_archive_digest_size_path_witness :
    (UploadArchive 9 "root" helloDB [] "myorg" "mywidget" "1.0.0"
        [104, 101, 108, 108, 111] none).result.map
        (fun v => (v.digest, v.size, v.archive)) =
      .ok (some ("sha256:" ++ hexString (sha256 [104, 101, 108, 108, 111])), some 5,
           some ("root" ++ "/" ++ "myorg" ++ "/" ++ "mywidget" ++ "/" ++ "1.0.0" ++ "/" ++
             ("sha256:" ++ hexString (sha256 [104, 101, 108, 108, 111])) ++
             ArchiveFileExtension)) ∧
    "sha256:" ++ hexString (sha256 [104, 101, 108, 108, 111]) =
      "sha256:2cf24dba5fb0a30e26e83b2ac5b9e29e1b161e5c1fa7425e73043362938b9824" := by
  constructor
  · exact upload_archive_digest_size_path 9 "root" helloDB [] "myorg" "mywidget" "1.0.0"
      [104, 101, 108, 108, 111] ⟨"myorg", "mywidget", "1.0.0", none, none, none, 1, 1⟩
      (by decide) (by decide) (by decide)
  · decide

/-! ## Claim C2: extraction and non-local entry names -/

/-- Whether a tar entry name fails the localisation/locality check of
validateAndJoinPath (absolute, traversing, reserved, or otherwise not a
valid local path), independently of the destination. -/
def entryNameNonLocal (name : String) : Bool :=
  match localizeGo name with
  | none => true
  | some localName => !(isLocalGo localName)

theorem validateAndJoinPath_error_iff (dest name : String) :
    validateAndJoinPath dest name = .error [.invalidPath] ↔
      entryNameNonLocal name = true := by
  unfold validateAndJoinPath entryNameNonLocal
  cases h : localizeGo name with
  | none => simp
  | some l =>
    by_cases hl : isLocalGo l = true
    · simp [hl]
    · have hl' : isLocalGo l = false := by simpa using hl
      simp [hl']

theorem validateAndJoinPath_ok_of_local (dest name : String)
    (h : entryNameNonLocal name = false) :
    ∃ l, validateAndJoinPath dest name = .ok (joinUnder dest l) := by
  unfold entryNameNonLocal at h
  unfold validateAndJoinPath
  cases hloc : localizeGo name with
  | none => rw [hloc] at h; simp at h
  | some l =>
    rw [hloc] at h
    simp at h
    exact ⟨l, by simp [h]⟩

theorem validateAndJoinPath_ok_shape {dest name t : String}
    (h : validateAndJoinPath dest name = .ok t) : ∃ l, t = joinUnder dest l := by
  unfold validateAndJoinPath at h
  cases hloc : localizeGo name with
  | none => rw [hloc] at h; cases h
  | some l =>
    rw [hloc] at h
    change (if (!isLocalGo l) = true then Except.error [ErrTag.invalidPath]
      else Except.ok (joinUnder dest l)) = Except.ok t at h
    by_cases hl : isLocalGo l = true
    · rw [hl] at h
      simp at h
      exact ⟨l, h.symm⟩
    · have hl' : isLocalGo l = false := by simpa using hl
      rw [hl'] at h
      simp at h

theorem isUnderOrAt_joinUnder (dest p : String) :
    isUnderOrAt dest (joinUnder dest p) = true := by
  unfold joinUnder isUnderOrAt
  by_cases h : (p == ".") = true
  · rw [if_pos h]
    simp
  · rw [if_neg h]
    have h2 : leadsList (dest ++ "/").data (dest ++ "/" ++ p).data = true := by
      have h3 : (dest ++ "/" ++ p).data = (dest ++ "/").data ++ p.data :=
        string_append_data (dest ++ "/") p
      rw [h3]
      exact leadsList_append _ _
    rw [h2, Bool.or_true]

theorem insertFsPath_eq_append (fs : List String) (p : String) :
    ∃ a, insertFsPath fs p = fs ++ a ∧ ∀ q ∈ a, q = p := by
  unfold insertFsPath
  by_cases h : fs.contains p = true
  · refine ⟨[], ?_, by simp⟩
    rw [if_pos h, List.append_nil]
  · refine ⟨[p], ?_, by simp⟩
    rw [if_neg h]

theorem readTarFs_extends (dest : String) (entries : List TarEntry) (fs : List String) :
    ∃ a, (readTarFs dest entries fs).2 = fs ++ a ∧
      ∀ q ∈ a, isUnderOrAt dest q = true := by
  induction entries generalizing fs with
  | nil => exact ⟨[], by simp [readTarFs]⟩
  | cons e rest ih =>
    simp only [readTarFs]
    cases hv : validateAndJoinPath dest e.name with
    | error err => exact ⟨[], by simp⟩
    | ok target =>
      obtain ⟨l, hl⟩ := validateAndJoinPath_ok_shape hv
      have htgt : isUnderOrAt dest target = true := by
        rw [hl]; exact isUnderOrAt_joinUnder dest l
      cases ht : e.typ with
      | dir =>
        simp only [extractEntryFs, ht]
        obtain ⟨a0, ha0, ha0'⟩ := insertFsPath_eq_append fs target
        obtain ⟨a1, ha1, ha1'⟩ := ih (insertFsPath fs target)
        refine ⟨a0 ++ a1, ?_, ?_⟩
        · rw [ha1, ha0, List.append_assoc]
        · intro q hq
          rcases List.mem_append.mp hq with hq | hq
          · rw [ha0' q hq]; exact htgt
          · exact ha1' q hq
      | reg =>
        simp only [extractEntryFs, ht]
        obtain ⟨a0, ha0, ha0'⟩ := insertFsPath_eq_append fs target
        obtain ⟨a1, ha1, ha1'⟩ := ih (insertFsPath fs target)
        refine ⟨a0 ++ a1, ?_, ?_⟩
        · rw [ha1, ha0, List.append_assoc]
        · intro q hq
          rcases List.mem_append.mp hq with hq | hq
          · rw [ha0' q hq]; exact htgt
          · exact ha1' q hq
      | symlink => exact ⟨[], by simp [extractEntryFs, ht]⟩
      | special => exact ⟨[], by simp [extractEntryFs, ht]⟩

theorem readTarFs_err_of_bad (dest : String) (entries : List TarEntry) (fs : List String)
    (hbad : ∃ e ∈ entries, entryNameNonLocal e.name = true) :
    ((readTarFs dest entries fs).1).isSome = true := by
  induction entries generalizing fs with
  | nil =>
    rcases hbad with ⟨e, he, _⟩
    cases he
  | cons e rest ih =>
    simp only [readTarFs]
    cases hv : validateAndJoinPath dest e.name with
    | error err => simp
    | ok target =>
      have hloc : entryNameNonLocal e.name = false := by
        cases hc : entryNameNonLocal e.name with
        | false => rfl
        | true =>
          have := (validateAndJoinPath_error_iff dest e.name).mpr hc
          rw [hv] at this
          cases this
      have hrest : ∃ e' ∈ rest, entryNameNonLocal e'.name = true := by
        rcases hbad with ⟨e', he', hb⟩
        rcases List.mem_cons.mp he' with rfl | hm
        · rw [hb] at hloc; cases hloc
        · exact ⟨e', hm, hb⟩
      cases ht : e.typ with
      | dir => simp only [extractEntryFs, ht]; exact ih (insertFsPath fs target) hrest
      | reg => simp only [extractEntryFs, ht]; exact ih (insertFsPath fs target) hrest
      | symlink => simp [extractEntryFs, ht]
      | special => simp [extractEntryFs, ht]

theorem readTarFs_first_bad (dest : String) (pre : List TarEntry) (bad : TarEntry)
    (post : List TarEntry) (fs : List String)
    (hpre : ∀ e ∈ pre, entryNameNonLocal e.name = false ∧ (e.typ = .dir ∨ e.typ = .reg))
    (hbad : entryNameNonLocal bad.name = true) :
    (readTarFs dest (pre ++ bad :: post) fs).1 = some [.invalidPath] := by
  induction pre generalizing fs with
  | nil =>
    have hb := (validateAndJoinPath_error_iff dest bad.name).mpr hbad
    simp only [List.nil_append, readTarFs, hb]
  | cons e rest ih =>
    obtain ⟨hel, het⟩ := hpre e (List.mem_cons_self e rest)
    obtain ⟨l, hl⟩ := validateAndJoinPath_ok_of_local dest e.name hel
    simp only [List.cons_append, readTarFs, hl]
    have hpre' : ∀ x ∈ rest, entryNameNonLocal x.name = false ∧
        (x.typ = TarEntryType.dir ∨ x.typ = TarEntryType.reg) :=
      fun x hx => hpre x (List.mem_cons_of_mem e hx)
    cases het with
    | inl ht =>
      simp only [extractEntryFs, ht]
      exact ih (insertFsPath fs (joinUnder dest l)) hpre'
    | inr ht =>
      simp only [extractEntryFs, ht]
      exact ih (insertFsPath fs (joinUnder dest l)) hpre' 

theorem removeAllFs_restore (fs a : List String) (dest : String)
    (hfs : ∀ p ∈ fs, isUnderOrAt dest p = false)
    (ha : ∀ q ∈ a, isUnderOrAt dest q = true) :
    removeAllFs (fs ++ a) dest = fs := by
  unfold removeAllFs
  rw [List.filter_append]
  have h1 : fs.filter (fun p => !(isUnderOrAt dest p)) = fs :=
    List.filter_eq_self.mpr (fun p hp => by simp [hfs p hp])
  have h2 : a.filter (fun p => !(isUnderOrAt dest p)) = [] :=
    List.filter_eq_nil_iff.mpr (fun q hq => by simp [ha q hq])
  rw [h1, h2, List.append_nil]

/-- Claim C2 counterexample: a tar whose first entry is a symlink and whose
second entry is the traversal name "../etc/passwd" does contain a non-local
entry name, yet ExtractFromReader reports the unsupported-file-type error,
not an invalid-path error (the entries are processed in order).  The
destination is still removed. -/
theorem extract_nonlocal_entry_counterexample :
    entryNameNonLocal "../etc/passwd" = true ∧
    ExtractFromReader [⟨"link", .symlink⟩, ⟨"../etc/passwd", .reg⟩] "out" [] =
      (some [.extractFailed, .unsupportedFileType], []) ∧
    ¬ goErrIs [ErrTag.extractFailed, .unsupportedFileType] .invalidPath ∧
    "out" ∉ (ExtractFromReader [⟨"link", .symlink⟩, ⟨"../etc/passwd", .reg⟩] "out" []).2 := by
  decide

/-- Claim C2 (amended): extracting into a fresh destination a tar stream one
of whose entry names is non-local after localisation always fails and
leaves the filesystem exactly as before — the destination does not exist
and nothing was created outside it; when every entry before the offending
one is a supported entry (directory or regular file) with a local name, the
error is the invalid-path error. -/
theorem extract_nonlocal_entry
    (dest : String) (fs : List String) (entries : List TarEntry)
    (hfs : ∀ p ∈ fs, isUnderOrAt dest p = false) :
    ((∃ e ∈ entries, entryNameNonLocal e.name = true) →
      ((ExtractFromReader entries dest fs).1).isSome = true ∧
      (ExtractFromReader entries dest fs).2 = fs ∧
      dest ∉ (ExtractFromReader entries dest fs).2) ∧
    (∀ pre bad post, entries = pre ++ bad :: post →
      (∀ e ∈ pre, entryNameNonLocal e.name = false ∧
        (e.typ = TarEntryType.dir ∨ e.typ = TarEntryType.reg)) →
      entryNameNonLocal bad.name = true →
      (ExtractFromReader entries dest fs).1 = some [.extractFailed, .invalidPath] ∧
      (ExtractFromReader entries dest fs).2 = fs) := by
  have hdm : dest ∉ fs := by
    intro hm
    have := hfs dest hm
    simp [isUnderOrAt] at this
  have hdc : fs.contains dest = false := by
    cases hc : fs.contains dest
    · rfl
    · exact absurd (List.mem_of_elem_eq_true hc) hdm
  have hins : insertFsPath fs dest = fs ++ [dest] := by
    unfold insertFsPath
    rw [if_neg (by simpa using hdm)]
  obtain ⟨adds, hadds, haddsU⟩ := readTarFs_extends dest entries (insertFsPath fs dest)
  have haddsU' : ∀ q ∈ [dest] ++ adds, isUnderOrAt dest q = true := by
    intro q hq
    rcases List.mem_append.mp hq with hq | hq
    · simp at hq
      subst hq
      simp [isUnderOrAt]
    · exact haddsU q hq
  have hfs2 : (readTarFs dest entries (insertFsPath fs dest)).2 =
      fs ++ ([dest] ++ adds) := by
    rw [hadds, hins, List.append_assoc]
  constructor
  · intro hbad
    have herr := readTarFs_err_of_bad dest entries (insertFsPath fs dest) hbad
    obtain ⟨err, herr'⟩ := Option.isSome_iff_exists.mp herr
    have hpair : readTarFs dest entries (insertFsPath fs dest) =
        (some err, fs ++ ([dest] ++ adds)) := by
      rw [← hfs2, ← herr']
    have hext : ExtractFromReader entries dest fs = (some (goWrap .extractFailed err), fs) := by
      unfold ExtractFromReader extractToDirectory
      rw [if_neg (by simpa using hdm)]
      simp only [hpair]
      rw [removeAllFs_restore fs ([dest] ++ adds) dest hfs haddsU']
    rw [hext]
    exact ⟨rfl, rfl, hdm⟩
  · intro pre bad post hsplit hpre hbad
    subst hsplit
    have herr := readTarFs_first_bad dest pre bad post (insertFsPath fs dest) hpre hbad
    have hpair : readTarFs dest (pre ++ bad :: post) (insertFsPath fs dest) =
        (some [.invalidPath], fs ++ ([dest] ++ adds)) := by
      rw [← hfs2, ← herr]
    have hext : ExtractFromReader (pre ++ bad :: post) dest fs =
        (some (goWrap .extractFailed [.invalidPath]), fs) := by
      unfold ExtractFromReader extractToDirectory
      rw [if_neg (by simpa using hdm)]
      simp only [hpair]
      rw [removeAllFs_restore fs ([dest] ++ adds) dest hfs haddsU']
    rw [hext]
    exact ⟨rfl, rfl⟩

/-- Witness for C2 (amended): extracting the single-entry tar named
"../etc/passwd" into the fresh destination "out" fails with the
invalid-path error and leaves the filesystem empty. -/
theorem extract_nonlocal_entry_witness :
    (ExtractFromReader [⟨"../etc/passwd", .reg⟩] "out" []).1 =
      some [.extractFailed, .invalidPath] ∧
    (ExtractFromReader [⟨"../etc/passwd", .reg⟩] "out" []).2 = [] :=
  (extract_nonlocal_entry "out" [] [⟨"../etc/passwd", .reg⟩] (by simp)).2
    [] ⟨"../etc/passwd", .reg⟩ [] rfl (by simp) (by decide)
